import Mathlib

/-!
Verification of the httpjson package (httpjson.go): a shallow embedding of
the strict JSON decode path (`decodeJSON`), the unknown-field walker
(`findExtraKeysGeneric` / `findExtraKeysStruct` / `findExtraKeysSlice`),
the error types (`Error`, `UnknownFieldError`), and the response decoding
entry points (`DecodeResponse`, `Client.decodeResponse`), together with
theorems settling the specification claims about them.

Byte-level JSON parsing is abstracted: an input byte sequence is modelled by
`Option JAny` — `none` for bytes that are not well-formed JSON (the decoder
returns a syntax error for them), `some v` for bytes parsing to the generic
value `v`. The `encoding/json` decoder itself (an external collaborator of
the source, described in spec section 4.1 as the Strict Decoder) is modelled
by `decVal`, including `DisallowUnknownFields`, first-saved-error semantics
and the error message formats used by the source's string-based error
classification.
-/

set_option maxHeartbeats 1000000
set_option maxRecDepth 4000

namespace HttpJson

/-- Dynamic JSON value as produced by decoding into `any` with `UseNumber`:
`nil`, `bool`, `json.Number`, `string`, `[]any`, `map[string]any`.
The mapping is kept as a list in wire order. -/
inductive JAny where
  | null
  | jbool (b : Bool)
  | num (s : String)
  | str (s : String)
  | arr (xs : List JAny)
  | obj (kvs : List (String × JAny))
  deriving Repr

/-- Size measure used for termination of the recursive functions on `JAny`. -/
def sizeJ : JAny → Nat
  | .null | .jbool _ | .num _ | .str _ => 1
  | .arr xs => 1 + sizeArr xs
  | .obj kvs => 1 + sizeObj kvs
where
  sizeArr : List JAny → Nat
    | [] => 0
    | x :: xs => 1 + sizeJ x + sizeArr xs
  sizeObj : List (String × JAny) → Nat
    | [] => 0
    | (_, v) :: kvs => 1 + sizeJ v + sizeObj kvs

/-- One scalar Go kind class. In the source these are the reflect kinds
Bool, Int..Int64, Uint..Uint64, Uintptr, Float32/64, Complex64/128, String,
all treated alike by the walker (no recursion, no diagnostics). -/
inductive SKind where
  | boolK | intK | floatK | strK
  deriving Repr, DecidableEq

mutual
/-- Model of a Go `reflect.Type` as used by the source: pointer, struct
(with its printed name), map with string keys, slice, array, scalar kinds,
interface kind, and `otherTy` for the remaining kinds (Chan, Func,
UnsafePointer) that reach the walker's default branch and are unsupported
by the decoder. -/
inductive GoType where
  | ptr (t : GoType)
  | structTy (n : String) (fields : List GoField)
  | mapTy (elem : GoType)
  | sliceTy (elem : GoType)
  | arrayTy (n : Nat) (elem : GoType)
  | scalar (k : SKind)
  | ifaceTy
  | otherTy (s : String)
  deriving Repr

/-- One struct field: Go name, raw value of the `json` struct tag
(empty when absent), whether the field is exported (PkgPath == ""), type. -/
inductive GoField where
  | mk (name : String) (jsonTag : String) (exported : Bool) (ty : GoType)
  deriving Repr
end

/-- Go field name accessor. -/
def GoField.name : GoField → String | .mk n _ _ _ => n
/-- Raw `json` tag value accessor. -/
def GoField.jsonTag : GoField → String | .mk _ t _ _ => t
/-- Whether the field is exported (source: `f.PkgPath == ""`). -/
def GoField.exported : GoField → Bool | .mk _ _ e _ => e
/-- Field type accessor. -/
def GoField.ty : GoField → GoType | .mk _ _ _ t => t

/-- Strip pointers: the loop `for t.Kind() == reflect.Ptr { t = t.Elem() }`
in `findExtraKeysGeneric` (the decoder resolves pointers the same way). -/
def stripPtr : GoType → GoType
  | .ptr t => stripPtr t
  | .structTy n fs => .structTy n fs
  | .mapTy e => .mapTy e
  | .sliceTy e => .sliceTy e
  | .arrayTy n e => .arrayTy n e
  | .scalar k => .scalar k
  | .ifaceTy => .ifaceTy
  | .otherTy s => .otherTy s

/-- Characters before the first comma. -/
def untilComma : List Char → List Char
  | [] => []
  | c :: cs => if c = ',' then [] else c :: untilComma cs

/-- First comma-separated part of a tag value:
`strings.Split(f.Tag.Get("json"), ",")[0]`. -/
def tagName (tag : String) : String :=
  ⟨untilComma tag.data⟩

/-- Panic raised by the reflect package: `reflect.Type.NumField` panics when
called on a non-struct type. -/
inductive ReflectPanic where
  | numFieldOnNonStruct (ty : String)
  deriving Repr, DecidableEq

/-- The source type `UnknownFieldError` with its two fields `Field`
(qualified key path) and `Type` (the `%T` of the offending value). -/
structure UnknownFieldError where
  field : String
  ty : String
  deriving Repr, DecidableEq

/-- Go `fmt.Sprintf("%T", value)` on a decoded `any` value. -/
def goTypeOfStr : JAny → String
  | .null => "<nil>"
  | .jbool _ => "bool"
  | .num _ => "json.Number"
  | .str _ => "string"
  | .arr _ => "[]interface \x7b\x7d"
  | .obj _ => "map[string]interface \x7b\x7d"

/-- Go `reflect.Type.String()` (model; structs render as their name). -/
def goTypeStr : GoType → String
  | .ptr t => "*" ++ goTypeStr t
  | .structTy n _ => n
  | .mapTy e => "map[string]" ++ goTypeStr e
  | .sliceTy e => "[]" ++ goTypeStr e
  | .arrayTy n e => "[" ++ toString n ++ "]" ++ goTypeStr e
  | .scalar .boolK => "bool"
  | .scalar .intK => "int"
  | .scalar .floatK => "float64"
  | .scalar .strK => "string"
  | .ifaceTy => "interface \x7b\x7d"
  | .otherTy s => s

/-- Assoc-list update with Go map assignment semantics (overwrite). -/
def insertAL (acc : List (String × String)) (k v : String) : List (String × String) :=
  (acc.filter fun p => p.1 ≠ k) ++ [(k, v)]

/-- Assoc-list lookup (`name, ok := validFields[key]`). -/
def lookupAL (l : List (String × String)) (k : String) : Option String :=
  (l.find? fun p => p.1 = k).map (·.2)

/-- One iteration of the `validFields` loop at the top of
`findExtraKeysStruct`: unexported fields are skipped; an empty tag name
means the Go name is the key; tag name "-" removes the field entirely. -/
def validStep (acc : List (String × String)) (f : GoField) : List (String × String) :=
  if f.exported then
    let jn := tagName f.jsonTag
    if jn = "" then insertAL acc f.name f.name
    else if jn = "-" then acc
    else insertAL acc jn f.name
  else acc

/-- The `validFields` map built at the top of `findExtraKeysStruct`:
wire key to Go field name. -/
def buildValidFields (fields : List GoField) : List (String × String) :=
  fields.foldl validStep []

/-- Go `reflect.Type.FieldByName` (model without embedded fields):
first field whose Go name matches. -/
def fieldByName (fields : List GoField) (n : String) : Option GoField :=
  fields.find? fun f => f.name = n

/-- Element type `t.Elem()` for slice and array types (identity elsewhere;
`findExtraKeysSlice` is only reached with slice/array types). -/
def elemTy : GoType → GoType
  | .sliceTy e => e
  | .arrayTy _ e => e
  | t => t

mutual
/-- Model of the source function `findExtraKeysGeneric`. Decoded values are
never pointers, so the value-dereference loop of the source is the identity
here. An `.error` result models a Go panic propagating out of the call.
The source returns nil for a nil value before the kind switch; the match
here puts the value first so that row comes first. -/
def findExtraKeysGeneric (t : GoType) (value : JAny) (pfx : String) :
    Except ReflectPanic (List UnknownFieldError) :=
  match value, stripPtr t with
  | .null, _ => .ok []
  | .obj kvs, .structTy n fs => findExtraKeysStruct (.structTy n fs) kvs pfx
  | .obj kvs, .mapTy e => findExtraKeysStruct (.mapTy e) kvs pfx
  | v, .sliceTy e => findExtraKeysSlice (.sliceTy e) v pfx
  | v, .arrayTy n e => findExtraKeysSlice (.arrayTy n e) v pfx
  | _, .scalar _ => .ok []
  | v, _ => .ok [⟨pfx, goTypeOfStr v⟩]
termination_by 3 * sizeJ value + 2
decreasing_by all_goals (simp [sizeJ, sizeJ.sizeObj, sizeJ.sizeArr]; try omega)

/-- Model of the source function `findExtraKeysStruct`. Reaching it with a
non-struct type is possible (Map-kind types are routed here by
`findExtraKeysGeneric`) and models the `t.NumField()` panic. -/
def findExtraKeysStruct (t : GoType) (data : List (String × JAny)) (pfx : String) :
    Except ReflectPanic (List UnknownFieldError) :=
  match t with
  | .structTy _ fields =>
    findExtraKeysStructLoop fields (buildValidFields fields) data pfx
  | t' => .error (.numFieldOnNonStruct (goTypeStr t'))
termination_by 3 * sizeJ.sizeObj data + 4
decreasing_by all_goals (simp [sizeJ, sizeJ.sizeObj, sizeJ.sizeArr]; try omega)

/-- The `for key, value := range data` loop of `findExtraKeysStruct`. -/
def findExtraKeysStructLoop (fields : List GoField)
    (valid : List (String × String)) (data : List (String × JAny)) (pfx : String) :
    Except ReflectPanic (List UnknownFieldError) :=
  match data with
  | [] => .ok []
  | (key, value) :: rest =>
    let v := if pfx = "" then key else pfx ++ "." ++ key
    match lookupAL valid key with
    | none => do
      let out ← findExtraKeysStructLoop fields valid rest pfx
      .ok (⟨v, goTypeOfStr value⟩ :: out)
    | some nm =>
      match fieldByName fields nm with
      | some st => do
        let es ← findExtraKeysGeneric st.ty value v
        let out ← findExtraKeysStructLoop fields valid rest pfx
        .ok (es ++ out)
      | none => findExtraKeysStructLoop fields valid rest pfx
termination_by 3 * sizeJ.sizeObj data + 3
decreasing_by all_goals (simp [sizeJ, sizeJ.sizeObj, sizeJ.sizeArr]; try omega)

/-- Model of the source function `findExtraKeysSlice`. Among decoded values
only `[]any` has Slice or Array kind. -/
def findExtraKeysSlice (t : GoType) (data : JAny) (pfx : String) :
    Except ReflectPanic (List UnknownFieldError) :=
  match data with
  | .arr xs => findExtraKeysSliceLoop (elemTy t) xs 0 pfx
  | _ => .ok [⟨pfx, goTypeOfStr data⟩]
termination_by 3 * sizeJ data + 1
decreasing_by all_goals (simp [sizeJ, sizeJ.sizeObj, sizeJ.sizeArr]; try omega)

/-- The indexed loop of `findExtraKeysSlice`. -/
def findExtraKeysSliceLoop (e : GoType) (xs : List JAny) (i : Nat) (pfx : String) :
    Except ReflectPanic (List UnknownFieldError) :=
  match xs with
  | [] => .ok []
  | x :: rest => do
    let es ← findExtraKeysGeneric e x (pfx ++ "[" ++ toString i ++ "]")
    let out ← findExtraKeysSliceLoop e rest (i + 1) pfx
    .ok (es ++ out)
termination_by 3 * sizeJ.sizeArr xs
decreasing_by all_goals (simp [sizeJ, sizeJ.sizeObj, sizeJ.sizeArr]; try omega)
end

/-! Error rendering. `UnknownFieldError.Error` in the source is
`fmt.Sprintf("unknown field %q of type %q", e.Field, e.Type)`; `%q` quotes a
string like `strconv.Quote`, modelled here for ASCII with the standard
escapes and `\u` escapes beyond. -/

/-- Lower-case hex digit. -/
def hexDigit (n : Nat) : Char :=
  if n < 10 then Char.ofNat (48 + n) else Char.ofNat (87 + n)

/-- Quoting of one character as done by Go `strconv.Quote`. -/
def goQuoteChar (c : Char) : List Char :=
  if c = '"' then ['\\', '"']
  else if c = '\\' then ['\\', '\\']
  else if c.toNat = 7 then ['\\', 'a']
  else if c.toNat = 8 then ['\\', 'b']
  else if c.toNat = 12 then ['\\', 'f']
  else if c = '\n' then ['\\', 'n']
  else if c = '\r' then ['\\', 'r']
  else if c = '\t' then ['\\', 't']
  else if c.toNat = 11 then ['\\', 'v']
  else if 32 ≤ c.toNat ∧ c.toNat < 127 then [c]
  else if c.toNat < 256 then ['\\', 'x', hexDigit (c.toNat / 16), hexDigit (c.toNat % 16)]
  else ['\\', 'u', hexDigit (c.toNat / 4096 % 16), hexDigit (c.toNat / 256 % 16),
        hexDigit (c.toNat / 16 % 16), hexDigit (c.toNat % 16)]

/-- Character list of a quoted string body. -/
def goQuoteList : List Char → List Char
  | [] => []
  | c :: cs => goQuoteChar c ++ goQuoteList cs

/-- Go `strconv.Quote` / `fmt` `%q` for strings (ASCII model). -/
def goQuote (s : String) : String :=
  ⟨'"' :: (goQuoteList s.data ++ ['"'])⟩

/-- The source method `UnknownFieldError.Error`:
`fmt.Sprintf("unknown field %q of type %q", e.Field, e.Type)`. -/
def UnknownFieldError.Error (e : UnknownFieldError) : String :=
  "unknown field " ++ goQuote e.field ++ " of type " ++ goQuote e.ty

/-- Whether `sub` occurs in `s` (prefix test helper). -/
def isPrefixOfL : List Char → List Char → Bool
  | [], _ => true
  | _ :: _, [] => false
  | a :: as, b :: bs => a = b && isPrefixOfL as bs

/-- Whether the first list occurs inside the second. -/
def containsSubL : List Char → List Char → Bool
  | sub, [] => isPrefixOfL sub []
  | sub, c :: rest => isPrefixOfL sub (c :: rest) || containsSubL sub rest

/-- Go `strings.Contains(s, sub)`. -/
def containsSubstr (s sub : String) : Bool :=
  containsSubL sub.data s.data

/-! The decoder model. The source delegates the strict decode to
`encoding/json` (`d := json.NewDecoder(...)`, optional
`d.DisallowUnknownFields()`, `d.UseNumber()`, `d.Decode(out)`), and then
classifies the resulting error by message content. `DecErr` models the
errors that decode can produce, and `errMsg` their `Error()` strings:
  - `*json.SyntaxError` for malformed input;
  - `*json.UnmarshalTypeError`, whose message is
    `json: cannot unmarshal <val> into Go value of type <ty>` or, when the
    error context holds a struct field stack,
    `json: cannot unmarshal <val> into Go struct field <Struct>.<path> of
    type <ty>` — the path elements are the fields' effective JSON names
    (tag name when tagged, else Go name);
  - `fmt.Errorf("json: unknown field %q", key)` saved by the decoder when
    `DisallowUnknownFields` is set and an object key matches no field;
  - `*json.UnsupportedTypeError` (`json: unsupported type: <ty>`).
The decoder walks the value in wire order and keeps the first saved error
(`decodeState.saveError`). -/
inductive DecErr where
  | syntaxErr (msg : String)
  | typeMismatch (jsonVal : String) (fieldCtx : Option (String × String)) (goTy : String)
  | unknownField (key : String)
  | unsupported (goTy : String)
  deriving Repr, DecidableEq

/-- The `Error()` string of a decode error (see `DecErr`). -/
def errMsg : DecErr → String
  | .syntaxErr m => m
  | .typeMismatch jv none gt =>
    "json: cannot unmarshal " ++ jv ++ " into Go value of type " ++ gt
  | .typeMismatch jv (some (sn, fp)) gt =>
    "json: cannot unmarshal " ++ jv ++ " into Go struct field " ++ sn ++ "." ++ fp
      ++ " of type " ++ gt
  | .unknownField k => "json: unknown field " ++ goQuote k
  | .unsupported gt => "json: unsupported type: " ++ gt

/-- The `UnmarshalTypeError.Value` rendering of a JSON value kind. -/
def jKindStr : JAny → String
  | .null => "null"
  | .jbool _ => "bool"
  | .num _ => "number"
  | .str _ => "string"
  | .arr _ => "array"
  | .obj _ => "object"

/-- Field context carried by an `UnmarshalTypeError`: innermost struct name
and the dot-joined stack of effective field names; empty stack means the
value form of the message. -/
def mkCtx (sn : String) (fp : List String) : Option (String × String) :=
  match fp with
  | [] => none
  | p :: ps => some (sn, ps.foldl (fun acc q => acc ++ "." ++ q) p)

/-- Type-mismatch error at the current position. -/
def tmErr (v : JAny) (sn : String) (fp : List String) (t : GoType) : DecErr :=
  .typeMismatch (jKindStr v) (mkCtx sn fp) (goTypeStr t)

/-- Effective wire key of a field for the decoder's field matching
(`encoding/json.typeFields`): `none` for unexported fields and tag name
"-"; the tag name when present; otherwise the Go field name. This is the
same name resolution that `findExtraKeysStruct` applies to build
`validFields`. -/
def effKey (f : GoField) : Option String :=
  if f.exported then
    let jn := tagName f.jsonTag
    if jn = "-" then none
    else if jn = "" then some f.name
    else some jn
  else none

/-- ASCII-lowercased string, modelling `encoding/json`'s case folding for
its case-insensitive field match fallback. -/
def lowerAscii (s : String) : String :=
  ⟨s.data.map Char.toLower⟩

/-- Decoder field lookup: exact effective-name match first, then
ASCII-case-insensitive fallback. -/
def findFieldDecoder (fields : List GoField) (k : String) : Option GoField :=
  match fields.find? (fun f => effKey f = some k) with
  | some f => some f
  | none => fields.find? (fun f => (effKey f).map lowerAscii = some (lowerAscii k))

/-- Whether a `json.Number` literal is acceptable for an integer target:
no fraction and no exponent. -/
def isIntLit (s : String) : Bool :=
  s.data.all fun c => c ≠ '.' ∧ c ≠ 'e' ∧ c ≠ 'E'

mutual
/-- Model of `encoding/json` `Decode` on an already-parsed value `v` into a
target of type `t` (spec section 4.1, Strict Decoder; the implementation is
the standard library, external to the source package). `dis` is
`DisallowUnknownFields`; `sn`/`fp` model `decodeState.errorContext` (the
innermost struct name and the effective-field-name stack). Returns the
first error saved during the wire-order walk, or `none` on success.
JSON null is a no-op for every target and never errors. -/
def decVal (dis : Bool) (sn : String) (fp : List String) (t : GoType) (v : JAny) :
    Option DecErr :=
  match v, stripPtr t with
  | .null, _ => none
  | .obj kvs, .structTy n fields => decObjStruct dis n fp fields kvs
  | .obj kvs, .mapTy e => decObjMap dis sn fp e kvs
  | .arr xs, .sliceTy e => decArrElems dis sn fp e xs
  | .arr xs, .arrayTy _ e => decArrElems dis sn fp e xs
  | .jbool _, .scalar .boolK => none
  | .num s, .scalar .intK =>
    if isIntLit s then none
    else some (.typeMismatch ("number " ++ s) (mkCtx sn fp) (goTypeStr (.scalar .intK)))
  | .num _, .scalar .floatK => none
  | .str _, .scalar .strK => none
  | _, .ifaceTy => none
  | _, .otherTy s => some (.unsupported s)
  | v, t' => some (tmErr v sn fp t')
termination_by 2 * sizeJ v
decreasing_by all_goals (simp [sizeJ, sizeJ.sizeObj, sizeJ.sizeArr]; try omega)

/-- Object-into-struct decoding: match each key in wire order; unknown keys
error under `DisallowUnknownFields` and are skipped otherwise; matched
fields decode their value with the field pushed on the error context.
First saved error wins. -/
def decObjStruct (dis : Bool) (n : String) (fp : List String) (fields : List GoField)
    (kvs : List (String × JAny)) : Option DecErr :=
  match kvs with
  | [] => none
  | (k, val) :: rest =>
    match findFieldDecoder fields k with
    | some f =>
      (decVal dis n (fp ++ [(effKey f).getD f.name]) f.ty val).orElse
        fun _ => decObjStruct dis n fp fields rest
    | none =>
      if dis then some (.unknownField k)
      else decObjStruct dis n fp fields rest
termination_by 2 * sizeJ.sizeObj kvs + 1
decreasing_by all_goals (simp [sizeJ, sizeJ.sizeObj, sizeJ.sizeArr]; try omega)

/-- Object-into-map decoding: every key is legal; each value decodes
against the map's element type; first saved error wins. -/
def decObjMap (dis : Bool) (sn : String) (fp : List String) (e : GoType)
    (kvs : List (String × JAny)) : Option DecErr :=
  match kvs with
  | [] => none
  | (_, val) :: rest =>
    (decVal dis sn fp e val).orElse fun _ => decObjMap dis sn fp e rest
termination_by 2 * sizeJ.sizeObj kvs + 1
decreasing_by all_goals (simp [sizeJ, sizeJ.sizeObj, sizeJ.sizeArr]; try omega)

/-- Array-element decoding against the element type; first saved error
wins. -/
def decArrElems (dis : Bool) (sn : String) (fp : List String) (e : GoType)
    (xs : List JAny) : Option DecErr :=
  match xs with
  | [] => none
  | x :: rest =>
    (decVal dis sn fp e x).orElse fun _ => decArrElems dis sn fp e rest
termination_by 2 * sizeJ.sizeArr xs + 1
decreasing_by all_goals (simp [sizeJ, sizeJ.sizeObj, sizeJ.sizeArr]; try omega)
end

/-- Model of `d.Decode(out)` on raw bytes: `none` bytes are not well-formed
JSON and produce a syntax error; otherwise the parsed value is decoded by
`decVal` with an empty error context. -/
def decode (dis : Bool) (t : GoType) (b : Option JAny) : Option DecErr :=
  match b with
  | none => some (.syntaxErr "invalid character in input")
  | some v => decVal dis "" [] t v

/-- Model of the re-decode `m := map[string]any{}; d.Decode(&m)` in
`decodeJSON`: succeeds exactly when the bytes parse and the top-level value
is an object (or null, which leaves the map nil — ranged over as empty). -/
def decodeIntoMap (b : Option JAny) : Option (List (String × JAny)) :=
  match b with
  | some (.obj kvs) => some kvs
  | some .null => some []
  | _ => none

/-- One component of the joined error returned by `decodeJSON`: either the
decoder's own error or one `UnknownFieldError` from the walker. -/
inductive JErr where
  | dec (e : DecErr)
  | unk (u : UnknownFieldError)
  deriving Repr, DecidableEq

/-- Model of the source function `decodeJSON`. The returned list models the
`error` result (empty list = nil; `errors.Join` of the walker diagnostics =
the list of their wrappers). `.error` models a panic propagating out of
`findExtraKeysGeneric`. -/
def decodeJSON (b : Option JAny) (t : GoType) (lenient : Bool) :
    Except ReflectPanic (List JErr) :=
  match decode (!lenient) t b with
  | none => .ok []
  | some err =>
    if lenient then .ok [.dec err]
    else if containsSubstr (errMsg err) "json: unknown field " then
      match decodeIntoMap b with
      | some m =>
        match findExtraKeysGeneric t (.obj m) "" with
        | .error p => .error p
        | .ok [] => .ok [.dec err]
        | .ok ds => .ok (ds.map JErr.unk)
      | none => .ok [.dec err]
    else .ok [.dec err]

/-! Response decoding: the source `Client.decodeResponse` and the exported
`DecodeResponse`. Reading the body is modelled as already done (read errors
are out of scope); the raw body bytes are represented by the same
`Option JAny` used for decoding, and the HTTP status by a `Nat`. -/

/-- One component of the joined error of `Client.decodeResponse`: the
`decodeJSON` failure parts, or the `*httpjson.Error` value (carrying the
raw response body, the status code, and its PrintBody flag). -/
inductive ClientErr where
  | jerr (e : JErr)
  | httpErr (body : Option JAny) (status : Nat) (printBody : Bool)
  deriving Repr

/-- Model of the source method `Client.decodeResponse`: decode with the
client's `Lenient` flag; on decode failure join the decode error with an
`Error` carrying the body (PrintBody true); on success return nil — the
status code is never consulted. -/
def clientDecodeResponse (lenient : Bool) (b : Option JAny) (status : Nat)
    (t : GoType) : Except ReflectPanic (List ClientErr) :=
  match decodeJSON b t lenient with
  | .error p => .error p
  | .ok [] => .ok []
  | .ok es => .ok (es.map ClientErr.jerr ++ [.httpErr b status true])

/-- One component of the joined error of `DecodeResponse`: a wrapped
per-option decode failure (`failed to decode server response option #i`),
or the `*httpjson.Error` value. -/
inductive DRErr where
  | optErr (i : Nat) (es : List JErr)
  | httpErr (body : Option JAny) (status : Nat) (printBody : Bool)
  deriving Repr

/-- The `for i := range out` loop of `DecodeResponse`: strict-decode each
candidate in order, stopping at the first success (its index is the first
component; -1 when none succeeds); failures of the attempted candidates are
collected in order. -/
def decodeResponseLoop (b : Option JAny) (outs : List GoType) (i : Nat) :
    Except ReflectPanic (Int × List DRErr) :=
  match outs with
  | [] => .ok (-1, [])
  | t :: rest =>
    match decodeJSON b t false with
    | .error p => .error p
    | .ok [] => .ok ((i : Int), [])
    | .ok es => do
      let (r, errs) ← decodeResponseLoop b rest (i + 1)
      .ok (r, .optErr i es :: errs)

/-- Model of the source function `DecodeResponse`: try each output in turn;
if any attempt failed or the status code is at least 400, append an `Error`
carrying the raw body (PrintBody set when some attempt failed). -/
def DecodeResponse (b : Option JAny) (status : Nat) (outs : List GoType) :
    Except ReflectPanic (Int × List DRErr) :=
  match decodeResponseLoop b outs 0 with
  | .error p => .error p
  | .ok (res, errs) =>
    if errs.isEmpty = false ∨ 400 ≤ status then
      .ok (res, errs ++ [.httpErr b status (!errs.isEmpty)])
    else
      .ok (res, errs)

/-! Structural predicates used to state the claims. -/

/-- Type compatibility between a target type and a parsed value: the pairs
for which the decoder model finds nothing to reject. Keys not matching any
field of a struct are unrestricted (in lenient mode the decoder skips
them), which is exactly the point of claim C6. -/
inductive TypeCompatible : GoType → JAny → Prop where
  | nullC (t) : TypeCompatible t .null
  | structC (t : GoType) (n : String) (fields : List GoField) (kvs : List (String × JAny))
      (h : stripPtr t = .structTy n fields)
      (hkv : ∀ k val, (k, val) ∈ kvs → ∀ f, findFieldDecoder fields k = some f →
        TypeCompatible f.ty val) :
      TypeCompatible t (.obj kvs)
  | mapC (t e : GoType) (kvs : List (String × JAny)) (h : stripPtr t = .mapTy e)
      (hkv : ∀ k val, (k, val) ∈ kvs → TypeCompatible e val) :
      TypeCompatible t (.obj kvs)
  | sliceC (t e : GoType) (xs : List JAny) (h : stripPtr t = .sliceTy e)
      (hx : ∀ x ∈ xs, TypeCompatible e x) : TypeCompatible t (.arr xs)
  | arrayC (t e : GoType) (n : Nat) (xs : List JAny) (h : stripPtr t = .arrayTy n e)
      (hx : ∀ x ∈ xs, TypeCompatible e x) : TypeCompatible t (.arr xs)
  | boolC (t : GoType) (b : Bool) (h : stripPtr t = .scalar .boolK) :
      TypeCompatible t (.jbool b)
  | intC (t : GoType) (s : String) (h : stripPtr t = .scalar .intK)
      (hs : isIntLit s = true) : TypeCompatible t (.num s)
  | floatC (t : GoType) (s : String) (h : stripPtr t = .scalar .floatK) :
      TypeCompatible t (.num s)
  | strC (t : GoType) (s : String) (h : stripPtr t = .scalar .strK) :
      TypeCompatible t (.str s)
  | ifaceC (t : GoType) (v : JAny) (h : stripPtr t = .ifaceTy) : TypeCompatible t v

/-- Structural conformance between a target type and a parsed value for the
walker: mapping values at struct positions with every key declared,
sequence values at sequence positions, anything at scalar positions. These
are exactly the values on which the walk finds nothing to report. -/
inductive Conforms : GoType → JAny → Prop where
  | nullW (t) : Conforms t .null
  | structW (t : GoType) (n : String) (fields : List GoField) (kvs : List (String × JAny))
      (h : stripPtr t = .structTy n fields)
      (hkv : ∀ k val, (k, val) ∈ kvs →
        (lookupAL (buildValidFields fields) k).isSome = true)
      (hrec : ∀ k val nm f, (k, val) ∈ kvs →
        lookupAL (buildValidFields fields) k = some nm →
        fieldByName fields nm = some f → Conforms f.ty val) :
      Conforms t (.obj kvs)
  | sliceW (t e : GoType) (xs : List JAny) (h : stripPtr t = .sliceTy e)
      (hx : ∀ x ∈ xs, Conforms e x) : Conforms t (.arr xs)
  | arrayW (t e : GoType) (n : Nat) (xs : List JAny) (h : stripPtr t = .arrayTy n e)
      (hx : ∀ x ∈ xs, Conforms e x) : Conforms t (.arr xs)
  | scalarW (t : GoType) (k : SKind) (v : JAny) (h : stripPtr t = .scalar k) :
      Conforms t v

/-- A value containing no mapping anywhere (hence no mapping keys at all). -/
inductive NoMappings : JAny → Prop where
  | nullN : NoMappings .null
  | boolN (b) : NoMappings (.jbool b)
  | numN (s) : NoMappings (.num s)
  | strN (s) : NoMappings (.str s)
  | arrN (xs) (hx : ∀ x ∈ xs, NoMappings x) : NoMappings (.arr xs)

/-- The hypothesis of claim C9, read off the spec: the value tree contains
no mapping key outside the declared fields of the shape at the
corresponding position, at any depth. Mapping-typed positions accept any
key; positions with no shape correspondence must simply contain no mapping
at all. -/
inductive KeysWithinShape : GoType → JAny → Prop where
  | leafK (t : GoType) (v : JAny) (hv : NoMappings v) : KeysWithinShape t v
  | structK (t : GoType) (n : String) (fields : List GoField) (kvs : List (String × JAny))
      (h : stripPtr t = .structTy n fields)
      (hkv : ∀ k val, (k, val) ∈ kvs →
        (lookupAL (buildValidFields fields) k).isSome = true)
      (hrec : ∀ k val nm f, (k, val) ∈ kvs →
        lookupAL (buildValidFields fields) k = some nm →
        fieldByName fields nm = some f → KeysWithinShape f.ty val) :
      KeysWithinShape t (.obj kvs)
  | mapK (t e : GoType) (kvs : List (String × JAny)) (h : stripPtr t = .mapTy e)
      (hkv : ∀ k val, (k, val) ∈ kvs → KeysWithinShape e val) :
      KeysWithinShape t (.obj kvs)
  | sliceK (t e : GoType) (xs : List JAny) (h : stripPtr t = .sliceTy e)
      (hx : ∀ x ∈ xs, KeysWithinShape e x) : KeysWithinShape t (.arr xs)
  | arrayK (t e : GoType) (n : Nat) (xs : List JAny) (h : stripPtr t = .arrayTy n e)
      (hx : ∀ x ∈ xs, KeysWithinShape e x) : KeysWithinShape t (.arr xs)

/-- Rendering of an offending runtime value inside a diagnostic message
(string values quoted, as `%q`-style diagnostics render them). -/
def jValueStr : JAny → String
  | .null => "<nil>"
  | .jbool true => "true"
  | .jbool false => "false"
  | .num s => s
  | .str s => goQuote s
  | .arr _ => "[...]"
  | .obj _ => "map[...]"

/-- Modelled from the spec: the stable textual form claimed for
`UnknownFieldDiagnostic.describe()` in spec section 6,
`unknown field <path> of type <runtimeType> with value <runtimeValue>`,
to be compared with the source's `UnknownFieldError.Error`. -/
def specDescribe (path runtimeType : String) (runtimeValue : JAny) : String :=
  "unknown field " ++ path ++ " of type " ++ runtimeType ++ " with value "
    ++ jValueStr runtimeValue

/-! Concrete example data, taken from the repository's own tests: a target
struct with the single field `Different` (wire key `different`) against the
payload `{"output":"data"}`. -/

/-- Target type of the end-to-end example: one string field tagged
`different`. -/
def exDiffTy : GoType := .structTy "T" [.mk "Different" "different" true (.scalar .strK)]

/-- The payload `{"output":"data"}` as a decoded generic value. -/
def exOutputVal : JAny := .obj [("output", .str "data")]

/-- Inner struct used by the C1 counterexample. -/
def exInnerTy : GoType := .structTy "Inner" [.mk "G" "" true (.scalar .strK)]

/-- A legal Go type whose field carries the json tag name
`json: unknown field z` (tag names may contain spaces, colons and
letters). -/
def exEvilTy : GoType := .structTy "T" [.mk "F" "json: unknown field z" true exInnerTy]

/-- Payload assigning a string to that field (a type mismatch, since the
field's type is a struct). -/
def exEvilVal : JAny := .obj [("json: unknown field z", .str "s")]

/-- A printable ASCII character needing no escaping under `%q`. -/
def plainChar (c : Char) : Prop :=
  32 ≤ c.toNat ∧ c.toNat < 127 ∧ c ≠ '"' ∧ c ≠ '\\'

instance (c : Char) : Decidable (plainChar c) := by
  unfold plainChar
  infer_instance

/-- The TestStruct shape of the repository's own walker tests. -/
def exTestStructTy : GoType :=
  .structTy "TestStruct"
    [.mk "Field1" "" true (.scalar .strK),
     .mk "Field2" "" true (.scalar .intK),
     .mk "Nested" "" true (.structTy "NestedStruct"
       [.mk "ValidField" "" true (.scalar .strK)])]

/-- Inner struct for the C10 counterexample (`map[string]Inner` target). -/
def exInner2 : GoType := .structTy "Inner" [.mk "F" "" true (.scalar .strK)]

@[simp] theorem GoField.name_mk (n t e ty) : GoField.name (.mk n t e ty) = n := rfl
@[simp] theorem GoField.jsonTag_mk (n t e ty) : GoField.jsonTag (.mk n t e ty) = t := rfl
@[simp] theorem GoField.exported_mk (n t e ty) : GoField.exported (.mk n t e ty) = e := rfl
@[simp] theorem GoField.ty_mk (n t e ty) : GoField.ty (.mk n t e ty) = ty := rfl

/-! Rewrite lemmas for the walker, one per execution case, usable both for
concrete evaluation and in inductive proofs. -/

/-- The pointer-stripping loop always terminates on a non-pointer type. -/
theorem stripPtr_ne_ptr : ∀ (t t' : GoType), stripPtr t ≠ .ptr t'
  | .ptr t, t' => by simpa [stripPtr] using stripPtr_ne_ptr t t'
  | .structTy _ _, _ => by simp [stripPtr]
  | .mapTy _, _ => by simp [stripPtr]
  | .sliceTy _, _ => by simp [stripPtr]
  | .arrayTy _ _, _ => by simp [stripPtr]
  | .scalar _, _ => by simp [stripPtr]
  | .ifaceTy, _ => by simp [stripPtr]
  | .otherTy _, _ => by simp [stripPtr]

@[simp] theorem fekGeneric_null (t : GoType) (pfx : String) :
    findExtraKeysGeneric t .null pfx = .ok [] := by
  rw [findExtraKeysGeneric.eq_def]
  rcases h : stripPtr t <;> rfl

theorem fekGeneric_obj_struct (t : GoType) (n : String) (fs : List GoField)
    (kvs : List (String × JAny)) (pfx : String) (h : stripPtr t = .structTy n fs) :
    findExtraKeysGeneric t (.obj kvs) pfx = findExtraKeysStruct (.structTy n fs) kvs pfx := by
  rw [findExtraKeysGeneric.eq_def, h]

theorem fekGeneric_obj_map (t e : GoType) (kvs : List (String × JAny)) (pfx : String)
    (h : stripPtr t = .mapTy e) :
    findExtraKeysGeneric t (.obj kvs) pfx = findExtraKeysStruct (.mapTy e) kvs pfx := by
  rw [findExtraKeysGeneric.eq_def, h]

theorem fekGeneric_slice (t e : GoType) (v : JAny) (pfx : String)
    (h : stripPtr t = .sliceTy e) (hv : v ≠ .null) :
    findExtraKeysGeneric t v pfx = findExtraKeysSlice (.sliceTy e) v pfx := by
  rw [findExtraKeysGeneric.eq_def, h]
  cases v <;> simp_all

theorem fekGeneric_array (t e : GoType) (n : Nat) (v : JAny) (pfx : String)
    (h : stripPtr t = .arrayTy n e) (hv : v ≠ .null) :
    findExtraKeysGeneric t v pfx = findExtraKeysSlice (.arrayTy n e) v pfx := by
  rw [findExtraKeysGeneric.eq_def, h]
  cases v <;> simp_all

theorem fekGeneric_scalar (t : GoType) (k : SKind) (v : JAny) (pfx : String)
    (h : stripPtr t = .scalar k) :
    findExtraKeysGeneric t v pfx = .ok [] := by
  rw [findExtraKeysGeneric.eq_def, h]
  cases v <;> simp

theorem fekGeneric_struct_mismatch (t : GoType) (n : String) (fs : List GoField)
    (v : JAny) (pfx : String) (h : stripPtr t = .structTy n fs)
    (hv : v ≠ .null) (hobj : ∀ kvs, v ≠ .obj kvs) :
    findExtraKeysGeneric t v pfx = .ok [⟨pfx, goTypeOfStr v⟩] := by
  rw [findExtraKeysGeneric.eq_def, h]
  cases v <;> simp_all

theorem fekGeneric_map_mismatch (t e : GoType) (v : JAny) (pfx : String)
    (h : stripPtr t = .mapTy e) (hv : v ≠ .null) (hobj : ∀ kvs, v ≠ .obj kvs) :
    findExtraKeysGeneric t v pfx = .ok [⟨pfx, goTypeOfStr v⟩] := by
  rw [findExtraKeysGeneric.eq_def, h]
  cases v <;> simp_all

theorem fekGeneric_iface (t : GoType) (v : JAny) (pfx : String)
    (h : stripPtr t = .ifaceTy) (hv : v ≠ .null) :
    findExtraKeysGeneric t v pfx = .ok [⟨pfx, goTypeOfStr v⟩] := by
  rw [findExtraKeysGeneric.eq_def, h]
  cases v <;> simp_all

theorem fekGeneric_other (t : GoType) (s : String) (v : JAny) (pfx : String)
    (h : stripPtr t = .otherTy s) (hv : v ≠ .null) :
    findExtraKeysGeneric t v pfx = .ok [⟨pfx, goTypeOfStr v⟩] := by
  rw [findExtraKeysGeneric.eq_def, h]
  cases v <;> simp_all

@[simp] theorem fekStruct_structTy (n : String) (fields : List GoField)
    (data : List (String × JAny)) (pfx : String) :
    findExtraKeysStruct (.structTy n fields) data pfx
      = findExtraKeysStructLoop fields (buildValidFields fields) data pfx := by
  rw [findExtraKeysStruct.eq_def]

@[simp] theorem fekStruct_mapTy (e : GoType) (data : List (String × JAny)) (pfx : String) :
    findExtraKeysStruct (.mapTy e) data pfx
      = .error (.numFieldOnNonStruct (goTypeStr (.mapTy e))) := by
  rw [findExtraKeysStruct.eq_def]

@[simp] theorem fekStructLoop_nil (fields : List GoField)
    (valid : List (String × String)) (pfx : String) :
    findExtraKeysStructLoop fields valid [] pfx = .ok [] := by
  rw [findExtraKeysStructLoop.eq_def]

theorem fekStructLoop_cons (fields : List GoField) (valid : List (String × String))
    (key : String) (value : JAny) (rest : List (String × JAny)) (pfx : String) :
    findExtraKeysStructLoop fields valid ((key, value) :: rest) pfx
      = (let v := if pfx = "" then key else pfx ++ "." ++ key
         match lookupAL valid key with
         | none => do
           let out ← findExtraKeysStructLoop fields valid rest pfx
           .ok (⟨v, goTypeOfStr value⟩ :: out)
         | some nm =>
           match fieldByName fields nm with
           | some st => do
             let es ← findExtraKeysGeneric st.ty value v
             let out ← findExtraKeysStructLoop fields valid rest pfx
             .ok (es ++ out)
           | none => findExtraKeysStructLoop fields valid rest pfx) := by
  rw [findExtraKeysStructLoop.eq_def]

@[simp] theorem fekSlice_arr (t : GoType) (xs : List JAny) (pfx : String) :
    findExtraKeysSlice t (.arr xs) pfx = findExtraKeysSliceLoop (elemTy t) xs 0 pfx := by
  rw [findExtraKeysSlice.eq_def]

@[simp] theorem fekSliceLoop_nil (e : GoType) (i : Nat) (pfx : String) :
    findExtraKeysSliceLoop e [] i pfx = .ok [] := by
  rw [findExtraKeysSliceLoop.eq_def]

theorem fekSliceLoop_cons (e : GoType) (x : JAny) (rest : List JAny) (i : Nat) (pfx : String) :
    findExtraKeysSliceLoop e (x :: rest) i pfx
      = (do
          let es ← findExtraKeysGeneric e x (pfx ++ "[" ++ toString i ++ "]")
          let out ← findExtraKeysSliceLoop e rest (i + 1) pfx
          .ok (es ++ out)) := by
  rw [findExtraKeysSliceLoop.eq_def]

/-! Rewrite lemmas for the decoder model, one per execution case. -/

@[simp] theorem decVal_null (dis : Bool) (sn : String) (fp : List String) (t : GoType) :
    decVal dis sn fp t .null = none := by
  rw [decVal.eq_def]
  rcases h : stripPtr t <;> rfl

theorem decVal_obj_struct (dis : Bool) (sn : String) (fp : List String) (t : GoType)
    (n : String) (fields : List GoField) (kvs : List (String × JAny))
    (h : stripPtr t = .structTy n fields) :
    decVal dis sn fp t (.obj kvs) = decObjStruct dis n fp fields kvs := by
  rw [decVal.eq_def, h]

theorem decVal_obj_map (dis : Bool) (sn : String) (fp : List String) (t e : GoType)
    (kvs : List (String × JAny)) (h : stripPtr t = .mapTy e) :
    decVal dis sn fp t (.obj kvs) = decObjMap dis sn fp e kvs := by
  rw [decVal.eq_def, h]

theorem decVal_arr_slice (dis : Bool) (sn : String) (fp : List String) (t e : GoType)
    (xs : List JAny) (h : stripPtr t = .sliceTy e) :
    decVal dis sn fp t (.arr xs) = decArrElems dis sn fp e xs := by
  rw [decVal.eq_def, h]

theorem decVal_arr_array (dis : Bool) (sn : String) (fp : List String) (t e : GoType)
    (m : Nat) (xs : List JAny) (h : stripPtr t = .arrayTy m e) :
    decVal dis sn fp t (.arr xs) = decArrElems dis sn fp e xs := by
  rw [decVal.eq_def, h]

theorem decVal_bool (dis : Bool) (sn : String) (fp : List String) (t : GoType)
    (b : Bool) (h : stripPtr t = .scalar .boolK) :
    decVal dis sn fp t (.jbool b) = none := by
  rw [decVal.eq_def, h]

theorem decVal_num_int (dis : Bool) (sn : String) (fp : List String) (t : GoType)
    (s : String) (h : stripPtr t = .scalar .intK) :
    decVal dis sn fp t (.num s)
      = (if isIntLit s then none
         else some (.typeMismatch ("number " ++ s) (mkCtx sn fp)
           (goTypeStr (.scalar .intK)))) := by
  rw [decVal.eq_def, h]

theorem decVal_num_float (dis : Bool) (sn : String) (fp : List String) (t : GoType)
    (s : String) (h : stripPtr t = .scalar .floatK) :
    decVal dis sn fp t (.num s) = none := by
  rw [decVal.eq_def, h]

theorem decVal_str_strK (dis : Bool) (sn : String) (fp : List String) (t : GoType)
    (s : String) (h : stripPtr t = .scalar .strK) :
    decVal dis sn fp t (.str s) = none := by
  rw [decVal.eq_def, h]

theorem decVal_iface (dis : Bool) (sn : String) (fp : List String) (t : GoType)
    (v : JAny) (h : stripPtr t = .ifaceTy) :
    decVal dis sn fp t v = none := by
  rw [decVal.eq_def, h]
  cases v <;> rfl

theorem decVal_struct_mismatch (dis : Bool) (sn : String) (fp : List String)
    (t : GoType) (n : String) (fields : List GoField) (v : JAny)
    (h : stripPtr t = .structTy n fields) (hv : v ≠ .null)
    (hobj : ∀ kvs, v ≠ .obj kvs) :
    decVal dis sn fp t v = some (tmErr v sn fp (.structTy n fields)) := by
  rw [decVal.eq_def, h]
  cases v <;> simp_all

theorem decVal_map_mismatch (dis : Bool) (sn : String) (fp : List String)
    (t e : GoType) (v : JAny) (h : stripPtr t = .mapTy e) (hv : v ≠ .null)
    (hobj : ∀ kvs, v ≠ .obj kvs) :
    decVal dis sn fp t v = some (tmErr v sn fp (.mapTy e)) := by
  rw [decVal.eq_def, h]
  cases v <;> simp_all

@[simp] theorem decObjStruct_nil (dis : Bool) (n : String) (fp : List String)
    (fields : List GoField) : decObjStruct dis n fp fields [] = none := by
  rw [decObjStruct.eq_def]

theorem decObjStruct_cons (dis : Bool) (n : String) (fp : List String)
    (fields : List GoField) (k : String) (val : JAny) (rest : List (String × JAny)) :
    decObjStruct dis n fp fields ((k, val) :: rest)
      = (match findFieldDecoder fields k with
         | some f =>
           (decVal dis n (fp ++ [(effKey f).getD f.name]) f.ty val).orElse
             fun _ => decObjStruct dis n fp fields rest
         | none =>
           if dis then some (.unknownField k)
           else decObjStruct dis n fp fields rest) := by
  rw [decObjStruct.eq_def]

@[simp] theorem decObjMap_nil (dis : Bool) (sn : String) (fp : List String)
    (e : GoType) : decObjMap dis sn fp e [] = none := by
  rw [decObjMap.eq_def]

theorem decObjMap_cons (dis : Bool) (sn : String) (fp : List String) (e : GoType)
    (k : String) (val : JAny) (rest : List (String × JAny)) :
    decObjMap dis sn fp e ((k, val) :: rest)
      = (decVal dis sn fp e val).orElse (fun _ => decObjMap dis sn fp e rest) := by
  rw [decObjMap.eq_def]

@[simp] theorem decArrElems_nil (dis : Bool) (sn : String) (fp : List String)
    (e : GoType) : decArrElems dis sn fp e [] = none := by
  rw [decArrElems.eq_def]

theorem decArrElems_cons (dis : Bool) (sn : String) (fp : List String) (e : GoType)
    (x : JAny) (rest : List JAny) :
    decArrElems dis sn fp e (x :: rest)
      = (decVal dis sn fp e x).orElse (fun _ => decArrElems dis sn fp e rest) := by
  rw [decArrElems.eq_def]

/-! Composed rewrite lemmas (no hypotheses), one per value constructor, for
automated evaluation: the kind dispatch appears as a match on `stripPtr t`
on the right-hand side. -/

theorem fekGeneric_obj (t : GoType) (kvs : List (String × JAny)) (pfx : String) :
    findExtraKeysGeneric t (.obj kvs) pfx
      = (match stripPtr t with
         | .structTy n fs => findExtraKeysStruct (.structTy n fs) kvs pfx
         | .mapTy e => findExtraKeysStruct (.mapTy e) kvs pfx
         | .sliceTy e => findExtraKeysSlice (.sliceTy e) (.obj kvs) pfx
         | .arrayTy n e => findExtraKeysSlice (.arrayTy n e) (.obj kvs) pfx
         | .scalar _ => .ok []
         | _ => .ok [⟨pfx, goTypeOfStr (.obj kvs)⟩]) := by
  rw [findExtraKeysGeneric.eq_def]
  cases h : stripPtr t <;> rfl

theorem fekGeneric_arr (t : GoType) (xs : List JAny) (pfx : String) :
    findExtraKeysGeneric t (.arr xs) pfx
      = (match stripPtr t with
         | .sliceTy e => findExtraKeysSlice (.sliceTy e) (.arr xs) pfx
         | .arrayTy n e => findExtraKeysSlice (.arrayTy n e) (.arr xs) pfx
         | .scalar _ => .ok []
         | _ => .ok [⟨pfx, goTypeOfStr (.arr xs)⟩]) := by
  rw [findExtraKeysGeneric.eq_def]
  cases h : stripPtr t <;> rfl

theorem fekGeneric_jbool (t : GoType) (b : Bool) (pfx : String) :
    findExtraKeysGeneric t (.jbool b) pfx
      = (match stripPtr t with
         | .sliceTy e => findExtraKeysSlice (.sliceTy e) (.jbool b) pfx
         | .arrayTy n e => findExtraKeysSlice (.arrayTy n e) (.jbool b) pfx
         | .scalar _ => .ok []
         | _ => .ok [⟨pfx, goTypeOfStr (.jbool b)⟩]) := by
  rw [findExtraKeysGeneric.eq_def]
  cases h : stripPtr t <;> rfl

theorem fekGeneric_num (t : GoType) (s : String) (pfx : String) :
    findExtraKeysGeneric t (.num s) pfx
      = (match stripPtr t with
         | .sliceTy e => findExtraKeysSlice (.sliceTy e) (.num s) pfx
         | .arrayTy n e => findExtraKeysSlice (.arrayTy n e) (.num s) pfx
         | .scalar _ => .ok []
         | _ => .ok [⟨pfx, goTypeOfStr (.num s)⟩]) := by
  rw [findExtraKeysGeneric.eq_def]
  cases h : stripPtr t <;> rfl

theorem fekGeneric_str (t : GoType) (s : String) (pfx : String) :
    findExtraKeysGeneric t (.str s) pfx
      = (match stripPtr t with
         | .sliceTy e => findExtraKeysSlice (.sliceTy e) (.str s) pfx
         | .arrayTy n e => findExtraKeysSlice (.arrayTy n e) (.str s) pfx
         | .scalar _ => .ok []
         | _ => .ok [⟨pfx, goTypeOfStr (.str s)⟩]) := by
  rw [findExtraKeysGeneric.eq_def]
  cases h : stripPtr t <;> rfl

theorem decVal_obj (dis : Bool) (sn : String) (fp : List String) (t : GoType)
    (kvs : List (String × JAny)) :
    decVal dis sn fp t (.obj kvs)
      = (match stripPtr t with
         | .structTy n fields => decObjStruct dis n fp fields kvs
         | .mapTy e => decObjMap dis sn fp e kvs
         | .ifaceTy => none
         | .otherTy s => some (.unsupported s)
         | t' => some (tmErr (.obj kvs) sn fp t')) := by
  rw [decVal.eq_def]
  cases h : stripPtr t <;> rfl

theorem decVal_arr (dis : Bool) (sn : String) (fp : List String) (t : GoType)
    (xs : List JAny) :
    decVal dis sn fp t (.arr xs)
      = (match stripPtr t with
         | .sliceTy e => decArrElems dis sn fp e xs
         | .arrayTy _ e => decArrElems dis sn fp e xs
         | .ifaceTy => none
         | .otherTy s => some (.unsupported s)
         | t' => some (tmErr (.arr xs) sn fp t')) := by
  rw [decVal.eq_def]
  cases h : stripPtr t <;> rfl

theorem decVal_jbool (dis : Bool) (sn : String) (fp : List String) (t : GoType)
    (b : Bool) :
    decVal dis sn fp t (.jbool b)
      = (match stripPtr t with
         | .scalar .boolK => none
         | .ifaceTy => none
         | .otherTy s => some (.unsupported s)
         | t' => some (tmErr (.jbool b) sn fp t')) := by
  rw [decVal.eq_def]
  cases h : stripPtr t <;> try rfl
  rename_i k
  cases k <;> rfl

theorem decVal_num (dis : Bool) (sn : String) (fp : List String) (t : GoType)
    (s : String) :
    decVal dis sn fp t (.num s)
      = (match stripPtr t with
         | .scalar .intK =>
           if isIntLit s then none
           else some (.typeMismatch ("number " ++ s) (mkCtx sn fp)
             (goTypeStr (.scalar .intK)))
         | .scalar .floatK => none
         | .ifaceTy => none
         | .otherTy s' => some (.unsupported s')
         | t' => some (tmErr (.num s) sn fp t')) := by
  rw [decVal.eq_def]
  cases h : stripPtr t <;> try rfl
  rename_i k
  cases k <;> rfl

theorem decVal_str (dis : Bool) (sn : String) (fp : List String) (t : GoType)
    (s : String) :
    decVal dis sn fp t (.str s)
      = (match stripPtr t with
         | .scalar .strK => none
         | .ifaceTy => none
         | .otherTy s' => some (.unsupported s')
         | t' => some (tmErr (.str s) sn fp t')) := by
  rw [decVal.eq_def]
  cases h : stripPtr t <;> try rfl
  rename_i k
  cases k <;> rfl

@[simp] theorem exceptBind_ok {α β ε : Type} (a : α) (f : α → Except ε β) :
    (Except.ok a >>= f) = f a := rfl

@[simp] theorem exceptBind_err {α β ε : Type} (e : ε) (f : α → Except ε β) :
    ((Except.error e : Except ε α) >>= f) = .error e := rfl

theorem decObjStruct_cons_found (dis : Bool) (n : String) (fp : List String)
    (fields : List GoField) (k : String) (val : JAny) (rest : List (String × JAny))
    (f : GoField) (hf : findFieldDecoder fields k = some f) :
    decObjStruct dis n fp fields ((k, val) :: rest)
      = (decVal dis n (fp ++ [(effKey f).getD f.name]) f.ty val).orElse
          (fun _ => decObjStruct dis n fp fields rest) := by
  rw [decObjStruct_cons, hf]

theorem decObjStruct_cons_unknown (dis : Bool) (n : String) (fp : List String)
    (fields : List GoField) (k : String) (val : JAny) (rest : List (String × JAny))
    (hf : findFieldDecoder fields k = none) :
    decObjStruct dis n fp fields ((k, val) :: rest)
      = (if dis then some (.unknownField k) else decObjStruct dis n fp fields rest) := by
  rw [decObjStruct_cons, hf]

/-- On a struct, the lenient decoder accepts an object whose matched
fields all decode cleanly (unmatched keys are skipped). -/
theorem decObjStruct_none_of (n : String) (fp : List String) (fields : List GoField)
    (kvs : List (String × JAny))
    (h : ∀ k val f, (k, val) ∈ kvs → findFieldDecoder fields k = some f →
      ∀ sn fp, decVal false sn fp f.ty val = none) :
    decObjStruct false n fp fields kvs = none := by
  induction kvs with
  | nil => simp
  | cons kv rest ih =>
    obtain ⟨k, val⟩ := kv
    cases hf : findFieldDecoder fields k with
    | none =>
      rw [decObjStruct_cons_unknown false n fp fields k val rest hf]
      simpa using ih fun k v f hm hf => h k v f (List.mem_cons_of_mem _ hm) hf
    | some f =>
      rw [decObjStruct_cons_found false n fp fields k val rest f hf,
        h k val f (List.mem_cons_self _ _) hf n (fp ++ [(effKey f).getD f.name])]
      simpa [Option.orElse] using
        ih fun k v f hm hf => h k v f (List.mem_cons_of_mem _ hm) hf

/-- On a map, the lenient decoder accepts an object whose values all decode
cleanly against the element type. -/
theorem decObjMap_none_of (sn : String) (fp : List String) (e : GoType)
    (kvs : List (String × JAny))
    (h : ∀ k val, (k, val) ∈ kvs → ∀ sn fp, decVal false sn fp e val = none) :
    decObjMap false sn fp e kvs = none := by
  induction kvs with
  | nil => simp
  | cons kv rest ih =>
    obtain ⟨k, val⟩ := kv
    rw [decObjMap_cons, h k val (List.mem_cons_self _ _) sn fp]
    simpa [Option.orElse] using ih fun k v hm => h k v (List.mem_cons_of_mem _ hm)

/-- Element-wise clean decoding of a sequence. -/
theorem decArrElems_none_of (sn : String) (fp : List String) (e : GoType)
    (xs : List JAny)
    (h : ∀ x ∈ xs, ∀ sn fp, decVal false sn fp e x = none) :
    decArrElems false sn fp e xs = none := by
  induction xs with
  | nil => simp
  | cons x rest ih =>
    rw [decArrElems_cons, h x (List.mem_cons_self _ _) sn fp]
    simpa [Option.orElse] using ih fun x hm => h x (List.mem_cons_of_mem _ hm)

/-- A type-compatible value decodes cleanly in lenient mode, whatever the
error context. -/
theorem decVal_none_of_compat {t : GoType} {v : JAny} (h : TypeCompatible t v) :
    ∀ sn fp, decVal false sn fp t v = none := by
  induction h with
  | nullC t => intro sn fp; simp
  | structC t n fields kvs hstrip hkv ih =>
    intro sn fp
    rw [decVal_obj, hstrip]
    exact decObjStruct_none_of n fp fields kvs
      fun k val f hm hf sn' fp' => ih k val hm f hf sn' fp'
  | mapC t e kvs hstrip hkv ih =>
    intro sn fp
    rw [decVal_obj, hstrip]
    exact decObjMap_none_of sn fp e kvs fun k val hm sn' fp' => ih k val hm sn' fp'
  | sliceC t e xs hstrip hx ih =>
    intro sn fp
    rw [decVal_arr, hstrip]
    exact decArrElems_none_of sn fp e xs fun x hm sn' fp' => ih x hm sn' fp'
  | arrayC t e m xs hstrip hx ih =>
    intro sn fp
    rw [decVal_arr, hstrip]
    exact decArrElems_none_of sn fp e xs fun x hm sn' fp' => ih x hm sn' fp'
  | boolC t b hstrip => intro sn fp; rw [decVal_jbool, hstrip]
  | intC t s hstrip hs => intro sn fp; rw [decVal_num, hstrip]; simp [hs]
  | floatC t s hstrip => intro sn fp; rw [decVal_num, hstrip]
  | strC t s hstrip => intro sn fp; rw [decVal_str, hstrip]
  | ifaceC t v hstrip => intro sn fp; exact decVal_iface _ _ _ _ _ hstrip

theorem fekStructLoop_cons_unknown (fields : List GoField)
    (valid : List (String × String)) (key : String) (value : JAny)
    (rest : List (String × JAny)) (pfx : String)
    (hl : lookupAL valid key = none) :
    findExtraKeysStructLoop fields valid ((key, value) :: rest) pfx
      = (do
          let out ← findExtraKeysStructLoop fields valid rest pfx
          .ok (⟨if pfx = "" then key else pfx ++ "." ++ key, goTypeOfStr value⟩ :: out)) := by
  rw [fekStructLoop_cons, hl]

theorem fekStructLoop_cons_found (fields : List GoField)
    (valid : List (String × String)) (key : String) (value : JAny)
    (rest : List (String × JAny)) (pfx : String) (nm : String) (st : GoField)
    (hl : lookupAL valid key = some nm) (hf : fieldByName fields nm = some st) :
    findExtraKeysStructLoop fields valid ((key, value) :: rest) pfx
      = (do
          let es ← findExtraKeysGeneric st.ty value
            (if pfx = "" then key else pfx ++ "." ++ key)
          let out ← findExtraKeysStructLoop fields valid rest pfx
          .ok (es ++ out)) := by
  rw [fekStructLoop_cons, hl]
  simp [hf]

theorem fekStructLoop_cons_skip (fields : List GoField)
    (valid : List (String × String)) (key : String) (value : JAny)
    (rest : List (String × JAny)) (pfx : String) (nm : String)
    (hl : lookupAL valid key = some nm) (hf : fieldByName fields nm = none) :
    findExtraKeysStructLoop fields valid ((key, value) :: rest) pfx
      = findExtraKeysStructLoop fields valid rest pfx := by
  rw [fekStructLoop_cons, hl]
  simp [hf]

/-- The struct loop of the walker reports nothing when every wire key is
declared and every matched field's value walks cleanly. -/
theorem fekStructLoop_ok_of (fields : List GoField) (kvs : List (String × JAny))
    (pfx : String)
    (h : ∀ k val, (k, val) ∈ kvs → (lookupAL (buildValidFields fields) k).isSome = true)
    (hrec : ∀ k val nm f, (k, val) ∈ kvs →
      lookupAL (buildValidFields fields) k = some nm →
      fieldByName fields nm = some f →
      ∀ pfx, findExtraKeysGeneric f.ty val pfx = .ok []) :
    findExtraKeysStructLoop fields (buildValidFields fields) kvs pfx = .ok [] := by
  induction kvs with
  | nil => simp
  | cons kv rest ih =>
    obtain ⟨k, val⟩ := kv
    have hsome := h k val (List.mem_cons_self _ _)
    cases hl : lookupAL (buildValidFields fields) k with
    | none => rw [hl] at hsome; simp at hsome
    | some nm =>
      cases hf : fieldByName fields nm with
      | none =>
        rw [fekStructLoop_cons_skip fields _ k val rest pfx nm hl hf]
        exact ih (fun k v hm => h k v (List.mem_cons_of_mem _ hm))
          fun k v nm f hm => hrec k v nm f (List.mem_cons_of_mem _ hm)
      | some f =>
        rw [fekStructLoop_cons_found fields _ k val rest pfx nm f hl hf,
          hrec k val nm f (List.mem_cons_self _ _) hl hf _,
          ih (fun k v hm => h k v (List.mem_cons_of_mem _ hm))
            fun k v nm f hm => hrec k v nm f (List.mem_cons_of_mem _ hm)]
        rfl

/-- The slice loop of the walker reports nothing when every element walks
cleanly. -/
theorem fekSliceLoop_ok_of (e : GoType) (xs : List JAny)
    (h : ∀ x ∈ xs, ∀ pfx, findExtraKeysGeneric e x pfx = .ok []) :
    ∀ i pfx, findExtraKeysSliceLoop e xs i pfx = .ok [] := by
  induction xs with
  | nil => intro i pfx; simp
  | cons x rest ih =>
    intro i pfx
    rw [fekSliceLoop_cons, h x (List.mem_cons_self _ _) _,
      ih (fun x hm => h x (List.mem_cons_of_mem _ hm)) (i + 1) pfx]
    rfl

/-- A conforming value walks without any diagnostic at any prefix. -/
theorem fek_ok_of_conforms {t : GoType} {v : JAny} (h : Conforms t v) :
    ∀ pfx, findExtraKeysGeneric t v pfx = .ok [] := by
  induction h with
  | nullW t => intro pfx; simp
  | structW t n fields kvs hstrip hkv hrec ih =>
    intro pfx
    rw [fekGeneric_obj, hstrip]
    show findExtraKeysStruct (.structTy n fields) kvs pfx = .ok []
    rw [fekStruct_structTy]
    exact fekStructLoop_ok_of fields kvs pfx hkv
      fun k val nm f hm hl hf pfx' => ih k val nm f hm hl hf pfx'
  | sliceW t e xs hstrip hx ih =>
    intro pfx
    rw [fekGeneric_arr, hstrip]
    show findExtraKeysSlice (.sliceTy e) (.arr xs) pfx = .ok []
    rw [fekSlice_arr]
    exact fekSliceLoop_ok_of (elemTy (.sliceTy e)) xs
      (by simpa [elemTy] using fun x hm pfx' => ih x hm pfx') 0 pfx
  | arrayW t e m xs hstrip hx ih =>
    intro pfx
    rw [fekGeneric_arr, hstrip]
    show findExtraKeysSlice (.arrayTy m e) (.arr xs) pfx = .ok []
    rw [fekSlice_arr]
    exact fekSliceLoop_ok_of (elemTy (.arrayTy m e)) xs
      (by simpa [elemTy] using fun x hm pfx' => ih x hm pfx') 0 pfx
  | scalarW t k v hstrip => intro pfx; exact fekGeneric_scalar t k v pfx hstrip

/-! Branch lemmas for `decodeJSON`. -/

theorem decodeJSON_ok_of_decode_none (b : Option JAny) (t : GoType) (lenient : Bool)
    (h : decode (!lenient) t b = none) : decodeJSON b t lenient = .ok [] := by
  simp [decodeJSON, h]

theorem decodeJSON_lenient_err (b : Option JAny) (t : GoType) (e : DecErr)
    (h : decode false t b = some e) : decodeJSON b t true = .ok [.dec e] := by
  simp [decodeJSON, h]

theorem decodeJSON_strict_nomarker (b : Option JAny) (t : GoType) (e : DecErr)
    (h : decode true t b = some e)
    (hm : containsSubstr (errMsg e) "json: unknown field " = false) :
    decodeJSON b t false = .ok [.dec e] := by
  simp [decodeJSON, h, hm]

theorem decodeJSON_strict_marker_nomap (b : Option JAny) (t : GoType) (e : DecErr)
    (h : decode true t b = some e)
    (hm : containsSubstr (errMsg e) "json: unknown field " = true)
    (hmap : decodeIntoMap b = none) :
    decodeJSON b t false = .ok [.dec e] := by
  simp [decodeJSON, h, hm, hmap]

theorem decodeJSON_strict_marker_walk (b : Option JAny) (t : GoType) (e : DecErr)
    (m : List (String × JAny)) (h : decode true t b = some e)
    (hm : containsSubstr (errMsg e) "json: unknown field " = true)
    (hmap : decodeIntoMap b = some m) :
    decodeJSON b t false
      = (match findExtraKeysGeneric t (.obj m) "" with
         | .error p => .error p
         | .ok [] => .ok [.dec e]
         | .ok ds => .ok (ds.map JErr.unk)) := by
  simp [decodeJSON, h, hm, hmap]

/-- Claim C1, amended: when the strict decode fails with an error whose
rendered message does not contain the substring `json: unknown field `
(all syntax errors, and type-mismatch errors except those whose struct
field path itself contains that substring — classification in the source is
by `strings.Contains` on the message), `decodeJSON` returns exactly that
error, the walker is not consulted, and no unknown-field diagnostic is
produced. -/
theorem C1_nonunknown_errors_short_circuit (b : Option JAny) (t : GoType) (e : DecErr)
    (h : decode true t b = some e)
    (hm : containsSubstr (errMsg e) "json: unknown field " = false) :
    decodeJSON b t false = .ok [.dec e] ∧ ∀ u, JErr.unk u ∉ [JErr.dec e] := by
  refine ⟨decodeJSON_strict_nomarker b t e h hm, ?_⟩
  intro u hmem
  simp at hmem

/-- Claim C2, amended: when the strict decode fails, the error message
carries the unknown-field marker, the generic re-parse succeeds and the
walker produces at least one diagnostic, the failure returned by
`decodeJSON` consists of exactly the walker's diagnostics in walk order —
the original strict-decode error is not part of it (it is returned alone
only when the walker finds nothing or the re-parse fails). -/
theorem C2_walker_diagnostics_replace_decode_error (b : Option JAny) (t : GoType)
    (e : DecErr) (m : List (String × JAny)) (ds : List UnknownFieldError)
    (h : decode true t b = some e)
    (hm : containsSubstr (errMsg e) "json: unknown field " = true)
    (hmap : decodeIntoMap b = some m)
    (hw : findExtraKeysGeneric t (.obj m) "" = .ok ds) (hne : ds ≠ []) :
    decodeJSON b t false = .ok (ds.map JErr.unk)
      ∧ ∀ e', JErr.dec e' ∉ ds.map JErr.unk := by
  constructor
  · rw [decodeJSON_strict_marker_walk b t e m h hm hmap, hw]
    cases ds with
    | nil => exact absurd rfl hne
    | cons d ds' => rfl
  · intro e' hmem
    rw [List.mem_map] at hmem
    obtain ⟨u, _, hu⟩ := hmem
    exact JErr.noConfusion hu

/-- Claim C10, amended: in strict mode a decode failure is never converted
into a success, provided the walk does not panic: if the generic re-parse
fails or the walk reports nothing, the original error is returned, and any
normal return is a non-empty error list. (The walk can panic for Map-kind
shapes, claim C4.) -/
theorem C10_decode_failure_not_erased (b : Option JAny) (t : GoType) (e : DecErr)
    (h : decode true t b = some e) :
    (decodeIntoMap b = none → decodeJSON b t false = .ok [.dec e])
    ∧ (∀ m, decodeIntoMap b = some m →
        findExtraKeysGeneric t (.obj m) "" = .ok [] →
        decodeJSON b t false = .ok [.dec e])
    ∧ (∀ res, decodeJSON b t false = .ok res → res ≠ []) := by
  refine ⟨?_, ?_, ?_⟩
  · intro hmap
    by_cases hm : containsSubstr (errMsg e) "json: unknown field " = true
    · exact decodeJSON_strict_marker_nomap b t e h hm hmap
    · exact decodeJSON_strict_nomarker b t e h (by simpa using hm)
  · intro m hmap hw
    by_cases hm : containsSubstr (errMsg e) "json: unknown field " = true
    · rw [decodeJSON_strict_marker_walk b t e m h hm hmap, hw]
    · exact decodeJSON_strict_nomarker b t e h (by simpa using hm)
  · intro res hres
    by_cases hm : containsSubstr (errMsg e) "json: unknown field " = true
    · cases hmap : decodeIntoMap b with
      | none =>
        rw [decodeJSON_strict_marker_nomap b t e h hm hmap] at hres
        simp at hres
        simp [← hres]
      | some m =>
        rw [decodeJSON_strict_marker_walk b t e m h hm hmap] at hres
        cases hw : findExtraKeysGeneric t (.obj m) "" with
        | error p => rw [hw] at hres; exact Except.noConfusion hres
        | ok ds =>
          rw [hw] at hres
          cases ds with
          | nil =>
            simp at hres
            simp [← hres]
          | cons d ds' =>
            simp at hres
            simp [← hres]
    · rw [decodeJSON_strict_nomarker b t e h (by simpa using hm)] at hres
      simp at hres
      simp [← hres]

/-- Strict decode of the example payload fails with the decoder's
unknown-field error for key `output`. -/
theorem evalDecodeOutput :
    decode true exDiffTy (some exOutputVal) = some (.unknownField "output") := by
  simp [exDiffTy, exOutputVal, decode, stripPtr, decVal_obj, decVal_str,
    decObjStruct_cons, findFieldDecoder, effKey, tagName, untilComma, lowerAscii,
    List.find?, Option.orElse]

/-- The walker reports exactly the diagnostic for key `output` on the
example payload. -/
theorem evalWalkOutput :
    findExtraKeysGeneric exDiffTy (.obj [("output", .str "data")]) ""
      = .ok [⟨"output", "string"⟩] := by
  simp [exDiffTy, stripPtr, fekGeneric_obj, fekGeneric_str,
    fekStructLoop_cons, buildValidFields, validStep, insertAL, lookupAL, tagName, untilComma,
    effKey, fieldByName, goTypeOfStr, elemTy, List.find?]

/-- Running `decodeJSON` on the example payload returns exactly the walker
diagnostic. -/
theorem evalDecodeJSONOutput :
    decodeJSON (some exOutputVal) exDiffTy false = .ok [.unk ⟨"output", "string"⟩] := by
  rw [decodeJSON_strict_marker_walk (some exOutputVal) exDiffTy (.unknownField "output")
    [("output", .str "data")] evalDecodeOutput (by decide) rfl, evalWalkOutput]
  rfl

/-- Witness for claim C1: a malformed input (syntax error) is returned
as-is by strict `decodeJSON` with no diagnostics. -/
theorem C1_witness :
    decode true exDiffTy none = some (.syntaxErr "invalid character in input")
    ∧ containsSubstr (errMsg (.syntaxErr "invalid character in input"))
        "json: unknown field " = false
    ∧ decodeJSON none exDiffTy false = .ok [.dec (.syntaxErr "invalid character in input")] :=
  ⟨rfl, by decide,
    (C1_nonunknown_errors_short_circuit none exDiffTy
      (.syntaxErr "invalid character in input") rfl (by decide)).1⟩

/-- Counterexample for claim C1: this strict decode fails with a
type-mismatch error (an `UnmarshalTypeError`, not an unrecognized-key
error), yet its message contains `json: unknown field ` through the field
path, so `decodeJSON` runs the walker and returns an unknown-field
diagnostic instead of the error as-is. -/
theorem C1_counterexample :
    decode true exEvilTy (some exEvilVal)
      = some (.typeMismatch "string" (some ("T", "json: unknown field z")) "Inner")
    ∧ containsSubstr
        (errMsg (.typeMismatch "string" (some ("T", "json: unknown field z")) "Inner"))
        "json: unknown field " = true
    ∧ decodeJSON (some exEvilVal) exEvilTy false
      = .ok [.unk ⟨"json: unknown field z", "string"⟩] := by
  have h1 : decode true exEvilTy (some exEvilVal)
      = some (.typeMismatch "string" (some ("T", "json: unknown field z")) "Inner") := by
    simp [exEvilTy, exInnerTy, exEvilVal, decode, stripPtr, decVal_obj, decVal_str,
      decObjStruct_cons, findFieldDecoder, effKey, tagName, untilComma, lowerAscii,
      List.find?, Option.orElse, tmErr, mkCtx, jKindStr, goTypeStr]
  have h2 : findExtraKeysGeneric exEvilTy (.obj [("json: unknown field z", .str "s")]) ""
      = .ok [⟨"json: unknown field z", "string"⟩] := by
    simp [exEvilTy, exInnerTy, stripPtr, fekGeneric_obj, fekGeneric_str,
      fekStructLoop_cons, buildValidFields, validStep, insertAL, lookupAL, tagName, untilComma,
      effKey, fieldByName, goTypeOfStr, elemTy, List.find?]
  refine ⟨h1, by decide, ?_⟩
  rw [decodeJSON_strict_marker_walk (some exEvilVal) exEvilTy
    (.typeMismatch "string" (some ("T", "json: unknown field z")) "Inner")
    [("json: unknown field z", .str "s")] h1 (by decide) rfl, h2]
  rfl

/-- Witness for claim C2 (amended): on the example payload the strict
decode fails with the unknown-field error, the walker finds one
diagnostic, and `decodeJSON` returns exactly the diagnostics. -/
theorem C2_witness :
    decode true exDiffTy (some exOutputVal) = some (.unknownField "output")
    ∧ containsSubstr (errMsg (.unknownField "output")) "json: unknown field " = true
    ∧ decodeIntoMap (some exOutputVal) = some [("output", .str "data")]
    ∧ findExtraKeysGeneric exDiffTy (.obj [("output", .str "data")]) ""
        = .ok [⟨"output", "string"⟩]
    ∧ decodeJSON (some exOutputVal) exDiffTy false = .ok [.unk ⟨"output", "string"⟩] := by
  refine ⟨evalDecodeOutput, by decide, rfl, evalWalkOutput, ?_⟩
  exact (C2_walker_diagnostics_replace_decode_error (some exOutputVal) exDiffTy
    (.unknownField "output") [("output", .str "data")] [⟨"output", "string"⟩]
    evalDecodeOutput (by decide) rfl evalWalkOutput (by simp)).1

/-- Counterexample for claim C2: the strict decode failed, the walker
produced a diagnostic, yet the returned failure contains only the walker
diagnostic — the original strict-decode error is not part of it. -/
theorem C2_counterexample :
    decode true exDiffTy (some exOutputVal) = some (.unknownField "output")
    ∧ decodeJSON (some exOutputVal) exDiffTy false = .ok [.unk ⟨"output", "string"⟩]
    ∧ ∀ e, JErr.dec e ∉ [JErr.unk (⟨"output", "string"⟩ : UnknownFieldError)] := by
  refine ⟨evalDecodeOutput, evalDecodeJSONOutput, ?_⟩
  intro e hmem
  simp at hmem

/-- Counterexample for claim C3: the diagnostic produced by the walker for
the example payload renders as `unknown field "output" of type "string"` —
quoted, and with no ` with value ` part — which differs from the spec's
claimed stable form. -/
theorem C3_counterexample :
    findExtraKeysGeneric exDiffTy (.obj [("output", .str "data")]) ""
      = .ok [⟨"output", "string"⟩]
    ∧ UnknownFieldError.Error ⟨"output", "string"⟩
      = "unknown field \"output\" of type \"string\""
    ∧ UnknownFieldError.Error ⟨"output", "string"⟩
      ≠ specDescribe "output" "string" (.str "data") :=
  ⟨evalWalkOutput, by decide, by decide⟩

theorem goQuoteChar_plain (c : Char) (h : plainChar c) : goQuoteChar c = [c] := by
  obtain ⟨h1, h2, h3, h4⟩ := h
  rw [goQuoteChar]
  simp only [if_neg h3, if_neg h4]
  have n7 : ¬c.toNat = 7 := by omega
  have n8 : ¬c.toNat = 8 := by omega
  have n12 : ¬c.toNat = 12 := by omega
  have n10 : ¬c = '\n' := by intro hc; subst hc; exact absurd h1 (by decide)
  have n13 : ¬c = '\r' := by intro hc; subst hc; exact absurd h1 (by decide)
  have n9 : ¬c = '\t' := by intro hc; subst hc; exact absurd h1 (by decide)
  have n11 : ¬c.toNat = 11 := by omega
  simp only [if_neg n7, if_neg n8, if_neg n12, if_neg n10, if_neg n13, if_neg n9,
    if_neg n11, if_pos (And.intro h1 h2)]

theorem goQuoteList_plain (l : List Char) (h : ∀ c ∈ l, plainChar c) :
    goQuoteList l = l := by
  induction l with
  | nil => rfl
  | cons c cs ih =>
    rw [goQuoteList, goQuoteChar_plain c (h c (List.mem_cons_self _ _)),
      ih fun c hm => h c (List.mem_cons_of_mem _ hm)]
    rfl

/-- Claim C3, amended: for paths and type strings of plain printable ASCII
(no quote, no backslash), the rendered error string of an
`UnknownFieldError` is `unknown field "<path>" of type "<type>"` — the
path and type are `%q`-quoted and no value is included. -/
theorem C3_unknown_field_error_format (fpath fty : String)
    (hp : ∀ c ∈ fpath.data, plainChar c) (ht : ∀ c ∈ fty.data, plainChar c) :
    UnknownFieldError.Error ⟨fpath, fty⟩
      = "unknown field \"" ++ fpath ++ "\" of type \"" ++ fty ++ "\"" := by
  have hq : ∀ (s : String), (∀ c ∈ s.data, plainChar c) →
      goQuote s = "\"" ++ s ++ "\"" := by
    intro s hs
    apply String.ext
    simp [goQuote, goQuoteList_plain s.data hs, String.data_append]
  rw [UnknownFieldError.Error, hq fpath hp, hq fty ht]
  apply String.ext
  simp [String.data_append]

/-- Witness for claim C3 (amended) at the example diagnostic. -/
theorem C3_witness :
    (∀ c ∈ ("output" : String).data, plainChar c)
    ∧ (∀ c ∈ ("string" : String).data, plainChar c)
    ∧ UnknownFieldError.Error ⟨"output", "string"⟩
      = "unknown field \"output\" of type \"string\"" :=
  ⟨by decide, by decide,
    C3_unknown_field_error_format "output" "string" (by decide) (by decide)⟩

/-- Claim C4 (code bug): walking a Map-kind shape against a mapping value
reaches `findExtraKeysStruct`, whose `t.NumField()` call panics on
non-struct types — instead of suppressing per-key diagnostics and
returning normally. -/
theorem C4_dynamic_map_walk_panics :
    findExtraKeysGeneric (.mapTy (.scalar .strK)) (.obj [("a", .str "b")]) ""
      = .error (.numFieldOnNonStruct "map[string]string") := by
  simp [stripPtr, fekGeneric_obj, goTypeStr]

theorem DecodeResponse_ok (b : Option JAny) (status : Nat) (outs : List GoType)
    (res : Int) (errs : List DRErr)
    (hloop : decodeResponseLoop b outs 0 = .ok (res, errs)) :
    DecodeResponse b status outs
      = (if errs.isEmpty = false ∨ 400 ≤ status then
          .ok (res, errs ++ [.httpErr b status (!errs.isEmpty)])
        else .ok (res, errs)) := by
  rw [DecodeResponse, hloop]

/-- Claim C5, amended: `DecodeResponse` attaches the body-carrying `Error`
whenever the status is at least 400, regardless of decode outcome;
`Client.decodeResponse` attaches it exactly when `decodeJSON` failed (for
any status — see the counterexample for the successful-decode case). -/
theorem C5_status_error_attachment :
    (∀ (b : Option JAny) (status : Nat) (outs : List GoType) (r : Int) (l : List DRErr),
      400 ≤ status → DecodeResponse b status outs = .ok (r, l) →
      ∃ pb, DRErr.httpErr b status pb ∈ l)
    ∧ (∀ (lenient : Bool) (b : Option JAny) (status : Nat) (t : GoType) (es : List JErr),
      decodeJSON b t lenient = .ok es → es ≠ [] →
      clientDecodeResponse lenient b status t
        = .ok (es.map ClientErr.jerr ++ [.httpErr b status true])) := by
  constructor
  · intro b status outs r l hst hres
    cases hloop : decodeResponseLoop b outs 0 with
    | error p => simp [DecodeResponse, hloop] at hres
    | ok pr =>
      obtain ⟨res, errs⟩ := pr
      rw [DecodeResponse_ok b status outs res errs hloop,
        if_pos (Or.inr hst)] at hres
      simp only [Except.ok.injEq, Prod.mk.injEq] at hres
      obtain ⟨hr, hl⟩ := hres
      refine ⟨!errs.isEmpty, ?_⟩
      rw [← hl]
      simp
  · intro lenient b status t es hdec hne
    rw [clientDecodeResponse, hdec]
    cases es with
    | nil => exact absurd rfl hne
    | cons e es' => rfl

/-- Witness for claim C5 (amended): a 500 response whose body fails to
decode gets the body-carrying error from both entry points. -/
theorem C5_witness :
    (∃ pb, DRErr.httpErr (some exOutputVal) 500 pb
      ∈ [DRErr.optErr 0 [.unk ⟨"output", "string"⟩],
         DRErr.httpErr (some exOutputVal) 500 true])
    ∧ clientDecodeResponse false (some exOutputVal) 500 exDiffTy
      = .ok [.jerr (.unk ⟨"output", "string"⟩),
             .httpErr (some exOutputVal) 500 true] := by
  constructor
  · refine C5_status_error_attachment.1 (some exOutputVal) 500 [exDiffTy] (-1) _
      (by omega) ?_
    rw [DecodeResponse]
    have hl : decodeResponseLoop (some exOutputVal) [exDiffTy] 0
        = .ok (-1, [DRErr.optErr 0 [.unk ⟨"output", "string"⟩]]) := by
      rw [decodeResponseLoop, evalDecodeJSONOutput]
      rfl
    rw [hl]
    rfl
  · exact C5_status_error_attachment.2 false (some exOutputVal) 500 exDiffTy
      [.unk ⟨"output", "string"⟩] evalDecodeJSONOutput (by simp)

/-- Counterexample for claim C5: a response with status 500 whose body
decodes successfully produces no error at all from
`Client.decodeResponse` — no status-derived error is attached. -/
theorem C5_counterexample :
    clientDecodeResponse false (some (.obj [])) 500 (.structTy "T" []) = .ok [] := by
  have h : decodeJSON (some (.obj [])) (.structTy "T" []) false = .ok [] := by
    apply decodeJSON_ok_of_decode_none
    simp [decode, decVal_obj, stripPtr]
  rw [clientDecodeResponse, h]

/-- Claim C6: lenient decoding succeeds on any syntactically valid,
type-compatible payload, even when it contains keys not declared in the
target shape, and produces no diagnostics. -/
theorem C6_lenient_ignores_unknown_keys (t : GoType) (v : JAny)
    (h : TypeCompatible t v) : decodeJSON (some v) t true = .ok [] := by
  have hd : decode false t (some v) = none := decVal_none_of_compat h "" []
  exact decodeJSON_ok_of_decode_none (some v) t true hd

/-- Witness for claim C6: the example payload has the undeclared key
`output`, is type-compatible with the target, and lenient decoding
succeeds. -/
theorem C6_witness :
    TypeCompatible exDiffTy exOutputVal
    ∧ decodeJSON (some exOutputVal) exDiffTy true = .ok [] := by
  have hc : TypeCompatible exDiffTy exOutputVal := by
    apply TypeCompatible.structC exDiffTy "T"
      [.mk "Different" "different" true (.scalar .strK)] _ rfl
    intro k val hm f hf
    simp [exOutputVal] at hm
    obtain ⟨hk, hv⟩ := hm
    rw [hk] at hf
    rw [show findFieldDecoder [GoField.mk "Different" "different" true (.scalar .strK)]
      "output" = none from rfl] at hf
    exact Option.noConfusion hf
  exact ⟨hc, C6_lenient_ignores_unknown_keys exDiffTy exOutputVal hc⟩

/-- Claim C9, amended: the walk reports nothing on every value that
conforms to the shape — all mapping keys declared at struct positions,
sequence values at sequence positions, no structural mismatch. -/
theorem C9_conforming_walk_is_empty (t : GoType) (v : JAny) (pfx : String)
    (h : Conforms t v) : findExtraKeysGeneric t v pfx = .ok [] :=
  fek_ok_of_conforms h pfx

/-- Witness for claim C9 (amended): a nested value using only declared
keys conforms and walks cleanly. -/
theorem C9_witness :
    Conforms exTestStructTy
      (.obj [("Field1", .str "value1"),
             ("Nested", .obj [("ValidField", .str "nestedValue")])])
    ∧ findExtraKeysGeneric exTestStructTy
      (.obj [("Field1", .str "value1"),
             ("Nested", .obj [("ValidField", .str "nestedValue")])]) "" = .ok [] := by
  have hnested : Conforms (.structTy "NestedStruct"
      [.mk "ValidField" "" true (.scalar .strK)])
      (.obj [("ValidField", .str "nestedValue")]) := by
    refine Conforms.structW _ "NestedStruct"
      [.mk "ValidField" "" true (.scalar .strK)] _ rfl ?_ ?_
    · intro k val hm
      simp at hm
      rw [hm.1]
      decide
    · intro k val nm f hm hl hf
      simp at hm
      rw [hm.1] at hl
      rw [show lookupAL (buildValidFields [GoField.mk "ValidField" "" true (.scalar .strK)])
        "ValidField" = some "ValidField" from rfl] at hl
      injection hl with hnm
      rw [← hnm] at hf
      rw [show fieldByName [GoField.mk "ValidField" "" true (.scalar .strK)]
        "ValidField" = some (GoField.mk "ValidField" "" true (.scalar .strK)) from rfl] at hf
      injection hf with hfv
      rw [← hfv, hm.2]
      exact Conforms.scalarW _ .strK _ rfl
  have hc : Conforms exTestStructTy
      (.obj [("Field1", .str "value1"),
             ("Nested", .obj [("ValidField", .str "nestedValue")])]) := by
    refine Conforms.structW _ "TestStruct"
      [.mk "Field1" "" true (.scalar .strK),
       .mk "Field2" "" true (.scalar .intK),
       .mk "Nested" "" true (.structTy "NestedStruct"
         [.mk "ValidField" "" true (.scalar .strK)])] _ rfl ?_ ?_
    · intro k val hm
      simp at hm
      rcases hm with ⟨hk, _⟩ | ⟨hk, _⟩ <;> rw [hk] <;> decide
    · intro k val nm f hm hl hf
      simp at hm
      rcases hm with ⟨hk, hv⟩ | ⟨hk, hv⟩
      · rw [hk] at hl
        rw [show lookupAL (buildValidFields
          [GoField.mk "Field1" "" true (.scalar .strK),
           GoField.mk "Field2" "" true (.scalar .intK),
           GoField.mk "Nested" "" true (.structTy "NestedStruct"
             [GoField.mk "ValidField" "" true (.scalar .strK)])]) "Field1"
          = some "Field1" from rfl] at hl
        injection hl with hnm
        rw [← hnm] at hf
        rw [show fieldByName
          [GoField.mk "Field1" "" true (.scalar .strK),
           GoField.mk "Field2" "" true (.scalar .intK),
           GoField.mk "Nested" "" true (.structTy "NestedStruct"
             [GoField.mk "ValidField" "" true (.scalar .strK)])] "Field1"
          = some (GoField.mk "Field1" "" true (.scalar .strK)) from rfl] at hf
        injection hf with hfv
        rw [← hfv, hv]
        exact Conforms.scalarW _ .strK _ rfl
      · rw [hk] at hl
        rw [show lookupAL (buildValidFields
          [GoField.mk "Field1" "" true (.scalar .strK),
           GoField.mk "Field2" "" true (.scalar .intK),
           GoField.mk "Nested" "" true (.structTy "NestedStruct"
             [GoField.mk "ValidField" "" true (.scalar .strK)])]) "Nested"
          = some "Nested" from rfl] at hl
        injection hl with hnm
        rw [← hnm] at hf
        rw [show fieldByName
          [GoField.mk "Field1" "" true (.scalar .strK),
           GoField.mk "Field2" "" true (.scalar .intK),
           GoField.mk "Nested" "" true (.structTy "NestedStruct"
             [GoField.mk "ValidField" "" true (.scalar .strK)])] "Nested"
          = some (GoField.mk "Nested" "" true (.structTy "NestedStruct"
             [GoField.mk "ValidField" "" true (.scalar .strK)])) from rfl] at hf
        injection hf with hfv
        rw [← hfv, hv]
        exact hnested
  exact ⟨hc, C9_conforming_walk_is_empty exTestStructTy _ "" hc⟩

/-- Counterexample for claim C9: the value `{"Nested":"invalid"}` contains
no mapping key outside the shape's declared fields at any depth, yet the
walk reports one diagnostic (a structural type mismatch at `Nested`). -/
theorem C9_counterexample :
    KeysWithinShape exTestStructTy (.obj [("Nested", .str "invalid")])
    ∧ findExtraKeysGeneric exTestStructTy (.obj [("Nested", .str "invalid")]) ""
      ≠ .ok [] := by
  constructor
  · refine KeysWithinShape.structK _ "TestStruct"
      [.mk "Field1" "" true (.scalar .strK),
       .mk "Field2" "" true (.scalar .intK),
       .mk "Nested" "" true (.structTy "NestedStruct"
         [.mk "ValidField" "" true (.scalar .strK)])] _ rfl ?_ ?_
    · intro k val hm
      simp at hm
      rw [hm.1]
      decide
    · intro k val nm f hm hl hf
      simp at hm
      rw [hm.2]
      exact KeysWithinShape.leafK _ _ (NoMappings.strN "invalid")
  · have h : findExtraKeysGeneric exTestStructTy (.obj [("Nested", .str "invalid")]) ""
        = .ok [⟨"Nested", "string"⟩] := by
      simp [exTestStructTy, stripPtr, fekGeneric_obj, fekGeneric_str,
        fekStructLoop_cons, buildValidFields, validStep, insertAL, lookupAL, tagName, untilComma,
        effKey, fieldByName, goTypeOfStr, elemTy, List.find?]
    rw [h]
    simp

/-- Witness for claim C10 (amended): a strict decode failure where the
generic re-parse fails (top level is an array) returns the original error,
and the result is non-empty. -/
theorem C10_witness :
    decode true (.sliceTy exInner2) (some (.arr [.obj [("extra", .num "1")]]))
      = some (.unknownField "extra")
    ∧ decodeIntoMap (some (.arr [.obj [("extra", .num "1")]])) = none
    ∧ decodeJSON (some (.arr [.obj [("extra", .num "1")]])) (.sliceTy exInner2) false
      = .ok [.dec (.unknownField "extra")]
    ∧ ([JErr.dec (.unknownField "extra")] : List JErr) ≠ [] := by
  have h1 : decode true (.sliceTy exInner2) (some (.arr [.obj [("extra", .num "1")]]))
      = some (.unknownField "extra") := by
    simp [exInner2, decode, stripPtr, decVal_arr, decVal_obj, decArrElems_cons,
      decObjStruct_cons, findFieldDecoder, effKey, tagName, untilComma, lowerAscii,
      List.find?, Option.orElse]
  refine ⟨h1, rfl, ?_, by simp⟩
  exact (C10_decode_failure_not_erased (some (.arr [.obj [("extra", .num "1")]]))
    (.sliceTy exInner2) (.unknownField "extra") h1).1 rfl

/-- Counterexample for claim C10: with a `map[string]Inner` target and a
nested unknown field, the strict decode fails, the re-parse succeeds, and
the walk panics in `reflect.Type.NumField` — `decodeJSON` does not return
an error, it panics. -/
theorem C10_counterexample :
    decode true (.mapTy exInner2) (some (.obj [("a", .obj [("extra", .num "1")])]))
      = some (.unknownField "extra")
    ∧ decodeJSON (some (.obj [("a", .obj [("extra", .num "1")])])) (.mapTy exInner2) false
      = .error (.numFieldOnNonStruct "map[string]Inner") := by
  have h1 : decode true (.mapTy exInner2) (some (.obj [("a", .obj [("extra", .num "1")])]))
      = some (.unknownField "extra") := by
    simp [exInner2, decode, stripPtr, decVal_obj, decObjMap_cons,
      decObjStruct_cons, findFieldDecoder, effKey, tagName, untilComma, lowerAscii,
      List.find?, Option.orElse]
  have h2 : findExtraKeysGeneric (.mapTy exInner2)
      (.obj [("a", .obj [("extra", .num "1")])]) ""
      = .error (.numFieldOnNonStruct "map[string]Inner") := by
    simp [exInner2, stripPtr, fekGeneric_obj, goTypeStr]
  refine ⟨h1, ?_⟩
  rw [decodeJSON_strict_marker_walk _ _ (.unknownField "extra")
    [("a", .obj [("extra", .num "1")])] h1 (by decide) rfl, h2]

/-! Claim C7: a field tagged `json:"-"` is invisible to the walker. -/

/-- A field whose json tag name is `-` contributes nothing to
`validFields`. -/
theorem buildValidFields_middle_skip (pre post : List GoField) (f : GoField)
    (hexp : f.exported = true) (htag : tagName f.jsonTag = "-") :
    buildValidFields (pre ++ f :: post) = buildValidFields (pre ++ post) := by
  unfold buildValidFields
  rw [List.foldl_append, List.foldl_append, List.foldl_cons]
  congr 1
  simp [validStep, hexp, htag]

/-- Every entry of `validFields` comes from a contributing field: an
exported field whose effective wire key is the entry's key and whose Go
name is the entry's value. -/
theorem mem_foldl_validStep (fields : List GoField) :
    ∀ (acc : List (String × String)) (p : String × String),
      p ∈ fields.foldl validStep acc →
      p ∈ acc ∨ ∃ g ∈ fields, g.exported = true ∧ effKey g = some p.1 ∧ p.2 = g.name := by
  induction fields with
  | nil => intro acc p h; exact Or.inl h
  | cons g rest ih =>
    intro acc p h
    rw [List.foldl_cons] at h
    rcases ih (validStep acc g) p h with hin | ⟨g', hg', he, hk, hn⟩
    · by_cases hexp : g.exported = true
      · rw [validStep, if_pos hexp] at hin
        by_cases h0 : tagName g.jsonTag = ""
        · rw [if_pos h0] at hin
          rw [insertAL] at hin
          rcases List.mem_append.mp hin with hl | hr
          · exact Or.inl (List.mem_of_mem_filter hl)
          · simp at hr
            subst hr
            refine Or.inr ⟨g, List.mem_cons_self _ _, hexp, ?_, rfl⟩
            simp [effKey, hexp, h0]
        · rw [if_neg h0] at hin
          by_cases h1 : tagName g.jsonTag = "-"
          · rw [if_pos h1] at hin
            exact Or.inl hin
          · rw [if_neg h1] at hin
            rw [insertAL] at hin
            rcases List.mem_append.mp hin with hl | hr
            · exact Or.inl (List.mem_of_mem_filter hl)
            · simp at hr
              subst hr
              refine Or.inr ⟨g, List.mem_cons_self _ _, hexp, ?_, rfl⟩
              simp [effKey, hexp, h0, h1]
      · rw [validStep, if_neg hexp] at hin
        exact Or.inl hin
    · exact Or.inr ⟨g', List.mem_cons_of_mem _ hg', he, hk, hn⟩

/-- A successful `validFields` lookup names a contributing field. -/
theorem lookupAL_buildValid_some (fields : List GoField) (k nm : String)
    (h : lookupAL (buildValidFields fields) k = some nm) :
    ∃ g ∈ fields, g.exported = true ∧ effKey g = some k ∧ nm = g.name := by
  rw [lookupAL] at h
  cases hf : List.find? (fun p => p.1 = k) (buildValidFields fields) with
  | none => rw [hf] at h; exact Option.noConfusion h
  | some p =>
    rw [hf] at h
    simp at h
    have hmem := List.mem_of_find?_eq_some hf
    have hcond : p.1 = k := by
      have := List.find?_some hf
      simpa using this
    rcases mem_foldl_validStep fields [] p hmem with hin | ⟨g, hg, he, hk, hn⟩
    · simp at hin
    · exact ⟨g, hg, he, by rw [← hcond]; exact hk, by rw [← h]; exact hn⟩

/-- When no field of the list has `k` as an effective wire key, the
`validFields` lookup misses. -/
theorem lookupAL_buildValid_none (fields : List GoField) (k : String)
    (h : ∀ g ∈ fields, effKey g ≠ some k) :
    lookupAL (buildValidFields fields) k = none := by
  cases hf : lookupAL (buildValidFields fields) k with
  | none => rfl
  | some nm =>
    obtain ⟨g, hg, _, hk, _⟩ := lookupAL_buildValid_some fields k nm hf
    exact absurd hk (h g hg)

/-- A successful assoc lookup exhibits a member pair. -/
theorem lookupAL_mem (l : List (String × String)) (k nm : String)
    (h : lookupAL l k = some nm) : ∃ p ∈ l, p.1 = k ∧ p.2 = nm := by
  rw [lookupAL] at h
  cases hf : List.find? (fun p => p.1 = k) l with
  | none => rw [hf] at h; exact Option.noConfusion h
  | some p =>
    rw [hf] at h
    simp at h
    refine ⟨p, List.mem_of_find?_eq_some hf, ?_, h⟩
    have := List.find?_some hf
    simpa using this

/-- Go `FieldByName` ignores a middle field with a different name. -/
theorem fieldByName_middle (pre post : List GoField) (f : GoField) (nm : String)
    (hne : f.name ≠ nm) :
    fieldByName (pre ++ f :: post) nm = fieldByName (pre ++ post) nm := by
  unfold fieldByName
  induction pre with
  | nil =>
    simp only [List.nil_append]
    rw [List.find?_cons_of_neg]
    simp [hne]
  | cons g rest ih =>
    simp only [List.cons_append]
    by_cases hg : g.name = nm
    · rw [List.find?_cons_of_pos, List.find?_cons_of_pos] <;> simp [hg]
    · rw [List.find?_cons_of_neg, List.find?_cons_of_neg]
      · exact ih
      · simp [hg]
      · simp [hg]

/-- The walker's struct loop depends on the field list only through
`FieldByName` at the names stored in `validFields`. -/
theorem fekStructLoop_congr_fields (fields₁ fields₂ : List GoField)
    (valid : List (String × String))
    (hfb : ∀ p ∈ valid, fieldByName fields₁ p.2 = fieldByName fields₂ p.2) :
    ∀ (kvs : List (String × JAny)) (pfx : String),
      findExtraKeysStructLoop fields₁ valid kvs pfx
        = findExtraKeysStructLoop fields₂ valid kvs pfx := by
  intro kvs
  induction kvs with
  | nil => intro pfx; simp
  | cons kv rest ih =>
    intro pfx
    obtain ⟨k, val⟩ := kv
    cases hl : lookupAL valid k with
    | none =>
      rw [fekStructLoop_cons_unknown fields₁ valid k val rest pfx hl,
        fekStructLoop_cons_unknown fields₂ valid k val rest pfx hl, ih pfx]
    | some nm =>
      obtain ⟨p, hp, _, hpnm⟩ := lookupAL_mem valid k nm hl
      have hfbnm : fieldByName fields₁ nm = fieldByName fields₂ nm := by
        rw [← hpnm]; exact hfb p hp
      cases hf : fieldByName fields₁ nm with
      | none =>
        rw [fekStructLoop_cons_skip fields₁ valid k val rest pfx nm hl hf,
          fekStructLoop_cons_skip fields₂ valid k val rest pfx nm hl (hfbnm ▸ hf), ih pfx]
      | some st =>
        rw [fekStructLoop_cons_found fields₁ valid k val rest pfx nm st hl hf,
          fekStructLoop_cons_found fields₂ valid k val rest pfx nm st hl (hfbnm ▸ hf),
          ih pfx]

/-- An undeclared key present in the data always contributes its diagnostic
to a normally-returned walk result. -/
theorem fekStructLoop_unknown_mem (fields : List GoField)
    (valid : List (String × String)) (kvs : List (String × JAny)) (pfx k : String)
    (v : JAny) (hl : lookupAL valid k = none) :
    ∀ out, (k, v) ∈ kvs →
      findExtraKeysStructLoop fields valid kvs pfx = .ok out →
      (⟨if pfx = "" then k else pfx ++ "." ++ k, goTypeOfStr v⟩ : UnknownFieldError)
        ∈ out := by
  induction kvs with
  | nil => intro out hmem; simp at hmem
  | cons kv rest ih =>
    intro out hmem hout
    obtain ⟨k', v'⟩ := kv
    rcases List.mem_cons.mp hmem with heq | hmem'
    · obtain ⟨hk, hv⟩ := Prod.mk.injEq .. ▸ heq
      subst hk; subst hv
      rw [fekStructLoop_cons_unknown fields valid k v rest pfx hl] at hout
      cases hrest : findExtraKeysStructLoop fields valid rest pfx with
      | error p => rw [hrest] at hout; simp at hout
      | ok out' =>
        rw [hrest] at hout
        simp at hout
        rw [← hout]
        exact List.mem_cons_self _ _
    · cases hl' : lookupAL valid k' with
      | none =>
        rw [fekStructLoop_cons_unknown fields valid k' v' rest pfx hl'] at hout
        cases hrest : findExtraKeysStructLoop fields valid rest pfx with
        | error p => rw [hrest] at hout; simp at hout
        | ok out' =>
          rw [hrest] at hout
          simp at hout
          rw [← hout]
          exact List.mem_cons_of_mem _ (ih out' hmem' hrest)
      | some nm =>
        cases hf : fieldByName fields nm with
        | none =>
          rw [fekStructLoop_cons_skip fields valid k' v' rest pfx nm hl' hf] at hout
          exact ih out hmem' hout
        | some st =>
          rw [fekStructLoop_cons_found fields valid k' v' rest pfx nm st hl' hf] at hout
          cases hes : findExtraKeysGeneric st.ty v'
              (if pfx = "" then k' else pfx ++ "." ++ k') with
          | error p => rw [hes] at hout; simp at hout
          | ok es =>
            rw [hes] at hout
            cases hrest : findExtraKeysStructLoop fields valid rest pfx with
            | error p => rw [hrest] at hout; simp at hout
            | ok out' =>
              rw [hrest] at hout
              simp at hout
              rw [← hout]
              exact List.mem_append_right _ (ih out' hmem' hrest)

/-- Claim C7: a struct field explicitly marked omitted (json tag `-`) is
invisible to the walker — removing it from the shape changes nothing — and
a wire key equal to that field's declared name is therefore reported as an
unknown-field diagnostic whenever the walk returns normally (hypotheses:
the omitted field's Go name is unique and no other field claims it as wire
key, as Go guarantees for distinct field names). -/
theorem C7_omitted_field_invisible (n : String) (pre post : List GoField)
    (f : GoField) (kvs : List (String × JAny)) (pfx : String)
    (hexp : f.exported = true)
    (htag : tagName f.jsonTag = "-")
    (huniq : ∀ g ∈ pre ++ post, g.name ≠ f.name)
    (hnokey : ∀ g ∈ pre ++ post, effKey g ≠ some f.name) :
    findExtraKeysStruct (.structTy n (pre ++ f :: post)) kvs pfx
      = findExtraKeysStruct (.structTy n (pre ++ post)) kvs pfx
    ∧ ∀ v out, (f.name, v) ∈ kvs →
        findExtraKeysStruct (.structTy n (pre ++ post)) kvs pfx = .ok out →
        (⟨if pfx = "" then f.name else pfx ++ "." ++ f.name, goTypeOfStr v⟩
          : UnknownFieldError) ∈ out := by
  have hbv := buildValidFields_middle_skip pre post f hexp htag
  constructor
  · rw [fekStruct_structTy, fekStruct_structTy, hbv]
    apply fekStructLoop_congr_fields
    intro p hp
    obtain ⟨g, hg, _, _, hn⟩ :=
      (mem_foldl_validStep (pre ++ post) [] p hp).resolve_left (by simp)
    exact fieldByName_middle pre post f p.2 (by rw [hn]; exact (huniq g hg).symm)
  · intro v out hmem hout
    rw [fekStruct_structTy] at hout
    exact fekStructLoop_unknown_mem (pre ++ post) (buildValidFields (pre ++ post))
      kvs pfx f.name v (lookupAL_buildValid_none (pre ++ post) f.name hnokey)
      out hmem hout

/-- Witness for claim C7, the `Ignored` field of the repository's own
test: the field is tagged `-`, the wire key `Ignored` is reported. -/
theorem C7_witness :
    findExtraKeysStruct
      (.structTy "Example" [.mk "Ignored" "-" true (.scalar .strK)])
      [("Ignored", .str "unexpected")] ""
      = findExtraKeysStruct (.structTy "Example" []) [("Ignored", .str "unexpected")] ""
    ∧ (⟨"Ignored", "string"⟩ : UnknownFieldError)
      ∈ [(⟨"Ignored", "string"⟩ : UnknownFieldError)] := by
  have h := C7_omitted_field_invisible "Example" [] []
    (.mk "Ignored" "-" true (.scalar .strK)) [("Ignored", .str "unexpected")] ""
    (by decide) (by decide) (by simp) (by simp)
  have h2 : findExtraKeysStruct (.structTy "Example" [])
      [("Ignored", .str "unexpected")] "" = .ok [⟨"Ignored", "string"⟩] := by
    simp [fekStructLoop_cons, buildValidFields, validStep, insertAL, lookupAL,
      goTypeOfStr, List.find?]
  refine ⟨h.1, ?_⟩
  exact h.2 (.str "unexpected") [⟨"Ignored", "string"⟩] (by simp) h2

end HttpJson
